import Mathlib

/-!
NativeMatrixImpl (NativeCommonOps/NativeMatrix.cpp)

A shallow embedding of the storage / view discipline and of the operation
layer of `NativeMatrixImpl`.

* The backing `storage` is a list of cells; its length is the capacity
  (`storage.size()`).
* `rows` and `cols` are the dimensions of the `matrix` view (`Eigen::Map`
  onto `storage.data()`), kept as integers because the source passes `int`.
  Products, sums and differences of dimensions are taken over the integers;
  the definitions whose name ends in `32` repeat `resize`, `mult` and the block
  operations with these computed in 32-bit `int` arithmetic (`wrap32`).
* The cell type `α` stands for `double`.  Copies are exact, arithmetic is
  the arithmetic of `α`.
* An operation that returns `bool` and writes the receiver is a function to
  `Bool × NativeMatrixImpl α`: the flag and the receiver after the call.
  Operand matrices are passed as their state at the call.
* A raw `double*` argument is an `Option (List α)`; `none` is the null pointer.
* Eigen's coefficient accessors are total in the model: a read outside the
  storage yields `default`, a write outside it is dropped.  Neither happens for
  a view that lies inside its storage (`Valid`).
* The two routines written with raw `memmove` (`removeRow`, `removeColumn`)
  return `none` when a move would touch a cell outside the storage.
-/

namespace NativeCommonOps

/-! ## Raw buffers -/

/-- Sequential write of `g 0, g 1, .., g (n-1)` to the cells `base, base+1, ..`
of a buffer.  A write past the end of the buffer is dropped. -/
def writeRun {α : Type} (buf : List α) (base : Nat) (g : Nat → α) : Nat → List α
  | 0 => buf
  | n + 1 => (writeRun buf base g n).set (base + n) (g n)

/-- Strided block write: for every `b < nb` and `a < na` the cell
`(b0 + b) * stride + (a0 + a)` receives `f a b`.  With `stride = rows` this is
an assignment to `block(a0, b0, na, nb)` of a column-major view (`a` the row);
with `stride = cols` it is an assignment to `block(b0, a0, nb, na)` of a
row-major view (`a` the column). -/
def writeBlock {α : Type} (buf : List α) (stride a0 b0 na : Nat) (f : Nat → Nat → α) :
    Nat → List α
  | 0 => buf
  | nb + 1 =>
    writeRun (writeBlock buf stride a0 b0 na f nb) ((b0 + nb) * stride + a0) (fun a => f a nb) na

/-- The C library `memmove(data + dst, data + src, n * sizeof(double))`: the
`n` cells starting at `src` are copied (as if through a temporary) to the cells
starting at `dst`.  The result is `none` when an offset is negative, the count
is negative or one of the two ranges leaves the buffer. -/
def memmove {α : Type} [Inhabited α] (data : List α) (dst src n : Int) : Option (List α) :=
  if 0 ≤ dst ∧ 0 ≤ src ∧ 0 ≤ n ∧ dst + n ≤ data.length ∧ src + n ≤ data.length then
    some (writeRun data dst.toNat (fun i => data.getD (src.toNat + i) default) n.toNat)
  else
    none

/-! ## The matrix object -/

/-- State of one `NativeMatrixImpl`: the cells of `storage` (the capacity is
the length) and the dimensions of the `matrix` view onto them. -/
structure NativeMatrixImpl (α : Type) where
  /-- Cells of `storage`, `storage.size()` many. -/
  storage : List α
  /-- Value of `matrix.rows()`. -/
  rows : Int
  /-- Value of `matrix.cols()`. -/
  cols : Int
  deriving DecidableEq, Repr

namespace NativeMatrixImpl

variable {α : Type}

/-- Number of cells reserved, `storage.size()`. -/
def capacity (m : NativeMatrixImpl α) : Nat := m.storage.length

/-- Modelled from the spec: `updateView` is declared in the header
`NativeMatrix.h`, which is not part of the sources; it re-seats the view on
the storage with the new logical shape ("update the logical `(rows, cols)` to
the new shape"). -/
def updateView (m : NativeMatrixImpl α) (numRows numCols : Int) : NativeMatrixImpl α :=
  { m with rows := numRows, cols := numCols }

/-- Eigen's `storage.resize(numRows, numCols)` for a dynamic matrix whose size
changes: the old cells are released and `numRows * numCols` uninitialised
cells are allocated (read as `default`). -/
def storageResize [Inhabited α] (m : NativeMatrixImpl α) (numRows numCols : Int) :
    NativeMatrixImpl α :=
  { m with storage := List.replicate (numRows * numCols).toNat default }

/-- Constructor `NativeMatrixImpl(numRows, numCols)`. -/
def new [Inhabited α] (numRows numCols : Int) : NativeMatrixImpl α :=
  updateView (storageResize ⟨[], numRows, numCols⟩ numRows numCols) numRows numCols

/-- Source `resize`, with the product taken over the integers. -/
def resize [Inhabited α] (m : NativeMatrixImpl α) (numRows numCols : Int) : NativeMatrixImpl α :=
  if numRows = m.rows ∧ numCols = m.cols then
    m
  else
    let m1 := if numRows * numCols > (m.storage.length : Int) then
        storageResize m numRows numCols
      else m
    updateView m1 numRows numCols

/-- Coefficient `(i, j)` of the column-major view: cell `j * rows + i` (`default`
when that cell is outside the storage). -/
def coeff [Inhabited α] (m : NativeMatrixImpl α) (i j : Nat) : α :=
  m.storage.getD (j * m.rows.toNat + i) default

/-! ## Row and column removal -/

/-- The `for` loop of `removeRow` after `n` iterations (`col = 0 .. n-1`). -/
def removeRowLoop [Inhabited α] (oldRows newRows rowToRemove : Int) (data : List α) :
    Nat → Option (List α)
  | 0 => some data
  | col + 1 =>
    (removeRowLoop oldRows newRows rowToRemove data col).bind fun d =>
      memmove d ((col : Int) * newRows + rowToRemove)
        ((col : Int) * oldRows + rowToRemove + 1) newRows

/-- Source `removeRow`.  `none` is an out-of-bounds `memmove`. -/
def removeRow [Inhabited α] (m : NativeMatrixImpl α) (rowToRemove : Int) :
    Option (Bool × NativeMatrixImpl α) :=
  if rowToRemove ≥ m.rows ∨ rowToRemove < 0 then
    some (false, m)
  else if m.rows ≤ 1 then
    some (true, updateView m 0 m.cols)
  else
    let oldRows := m.rows
    let newRows := oldRows - 1
    let newCols := m.cols
    (removeRowLoop oldRows newRows rowToRemove m.storage (newCols - 1).toNat).bind fun d1 =>
      let lastCol := m.cols - 1
      let remaining := newRows - rowToRemove
      (memmove d1 (lastCol * newRows + rowToRemove)
          (lastCol * oldRows + rowToRemove + 1) remaining).map fun d2 =>
        (true, updateView { m with storage := d2 } newRows newCols)

/-- Source `removeColumn`.  `none` is an out-of-bounds `memmove`. -/
def removeColumn [Inhabited α] (m : NativeMatrixImpl α) (colToRemove : Int) :
    Option (Bool × NativeMatrixImpl α) :=
  if colToRemove ≥ m.cols ∨ colToRemove < 0 then
    some (false, m)
  else if m.cols ≤ 1 then
    some (true, updateView m m.rows 0)
  else
    let newRows := m.rows
    let oldCols := m.cols
    let newCols := oldCols - 1
    (memmove m.storage (colToRemove * newRows) ((colToRemove + 1) * newRows)
        ((newCols - colToRemove) * newRows)).map fun d =>
      (true, updateView { m with storage := d } newRows newCols)

/-! ## The dense linear-algebra library -/

/-- Modelled from the spec: the decomposition kernels of the external dense
linear-algebra library ("LU-based inverse; LU-based linear solve; full-pivot
LU with an invertibility test; element-wise approximate-equality test") and
the constant `nan` of the header `NativeMatrix.h` are not part of the sources.
They are taken as parameters; a square matrix of size `n` is passed as its
coefficient function. -/
structure Kernels (α : Type) where
  /-- Coefficients of `a.lu().inverse()`. -/
  luInverse : Nat → (Nat → Nat → α) → Nat → Nat → α
  /-- Coefficients of `a.lu().solve(b)` for a one-column `b`. -/
  luSolve : Nat → (Nat → Nat → α) → (Nat → α) → Nat → α
  /-- Value of `a.fullPivLu().isInvertible()`. -/
  isInvertible : Nat → (Nat → Nat → α) → Bool
  /-- Coefficients of `a.fullPivLu().solve(b)` for a one-column `b`. -/
  fullPivSolve : Nat → (Nat → Nat → α) → (Nat → α) → Nat → α
  /-- Value of `x.isApprox(y, precision)` for two `r x c` matrices. -/
  isApprox : Nat → Nat → (Nat → Nat → α) → (Nat → Nat → α) → α → Bool
  /-- The not-a-number constant. -/
  nan : α
  /-- Value of `std::isnan`. -/
  isnan : α → Bool

/-- Eigen's dense assignment `matrix = expr`: every coefficient `(i, j)` of the
view receives `f i j`. -/
def assign (m : NativeMatrixImpl α) (f : Nat → Nat → α) : NativeMatrixImpl α :=
  { m with storage := writeBlock m.storage m.rows.toNat 0 0 m.rows.toNat f m.cols.toNat }

/-- Eigen's block assignment `matrix.block(r0, c0, h, w) = expr`. -/
def assignBlock (m : NativeMatrixImpl α) (r0 c0 h w : Int) (f : Nat → Nat → α) :
    NativeMatrixImpl α :=
  { m with storage := writeBlock m.storage m.rows.toNat r0.toNat c0.toNat h.toNat f w.toNat }

/-- Coefficient `(i, j)` of a raw row-major buffer with `cols` columns
(`Eigen::Map<.., RowMajor>`): cell `i * cols + j`. -/
def rowMajorCoeff [Inhabited α] (data : List α) (cols : Int) (i j : Nat) : α :=
  data.getD (i * cols.toNat + j) default

/-- Eigen's block assignment `eigenData.block(r0, c0, h, w) = expr` to a raw
row-major buffer with `cols` columns. -/
def assignRowMajorBlock (data : List α) (cols r0 c0 h w : Int) (f : Nat → Nat → α) : List α :=
  writeBlock data cols.toNat c0.toNat r0.toNat w.toNat (fun j i => f i j) h.toNat

/-- Coefficient `(i, j)` of the product `x * y` with inner dimension `n`. -/
def dot [Zero α] [Add α] [Mul α] (n : Nat) (x y : Nat → Nat → α) (i j : Nat) : α :=
  ((List.range n).map fun k => x i k * y k j).sum

/-! ## Arithmetic operations -/

/-- Source `set(NativeMatrixImpl *a)`. -/
def set [Inhabited α] (m a : NativeMatrixImpl α) : Bool × NativeMatrixImpl α :=
  (true, assign (resize m a.rows a.cols) (coeff a))

/-- Source `add`. -/
def add [Inhabited α] [Add α] (m a b : NativeMatrixImpl α) : Bool × NativeMatrixImpl α :=
  if a.rows ≠ b.rows ∨ a.cols ≠ b.cols then
    (false, m)
  else
    (true, assign (resize m a.rows a.cols) fun i j => coeff a i j + coeff b i j)

/-- Source `subtract`. -/
def subtract [Inhabited α] [Sub α] (m a b : NativeMatrixImpl α) : Bool × NativeMatrixImpl α :=
  if a.rows ≠ b.rows ∨ a.cols ≠ b.cols then
    (false, m)
  else
    (true, assign (resize m a.rows a.cols) fun i j => coeff a i j - coeff b i j)

/-- Source `mult(a, b)`. -/
def mult [Inhabited α] [Zero α] [Add α] [Mul α] (m a b : NativeMatrixImpl α) :
    Bool × NativeMatrixImpl α :=
  if a.cols ≠ b.rows then
    (false, m)
  else
    (true, assign (resize m a.rows b.cols) (dot a.cols.toNat (coeff a) (coeff b)))

/-- Source `mult(scale, a, b)`. -/
def multScale [Inhabited α] [Zero α] [Add α] [Mul α] (m : NativeMatrixImpl α) (scale : α)
    (a b : NativeMatrixImpl α) : Bool × NativeMatrixImpl α :=
  if a.cols ≠ b.rows then
    (false, m)
  else
    (true, assign (resize m a.rows b.cols)
      (dot a.cols.toNat (fun i k => scale * coeff a i k) (coeff b)))

/-- Source `multAdd`. -/
def multAdd [Inhabited α] [Zero α] [Add α] [Mul α] (m a b : NativeMatrixImpl α) :
    Bool × NativeMatrixImpl α :=
  if a.rows ≠ m.rows ∨ b.cols ≠ m.cols ∨ a.cols ≠ b.rows then
    (false, m)
  else
    (true, assign m fun i j => coeff m i j + dot a.cols.toNat (coeff a) (coeff b) i j)

/-- Source `multTransA`. -/
def multTransA [Inhabited α] [Zero α] [Add α] [Mul α] (m a b : NativeMatrixImpl α) :
    Bool × NativeMatrixImpl α :=
  if a.rows ≠ b.rows then
    (false, m)
  else
    (true, assign (resize m a.cols b.cols)
      (dot a.rows.toNat (fun i k => coeff a k i) (coeff b)))

/-- Source `multAddTransA`. -/
def multAddTransA [Inhabited α] [Zero α] [Add α] [Mul α] (m a b : NativeMatrixImpl α) :
    Bool × NativeMatrixImpl α :=
  if a.cols ≠ m.rows ∨ b.cols ≠ m.cols ∨ a.rows ≠ b.rows then
    (false, m)
  else
    (true, assign m fun i j =>
      coeff m i j + dot a.rows.toNat (fun i k => coeff a k i) (coeff b) i j)

/-- Source `multTransB`. -/
def multTransB [Inhabited α] [Zero α] [Add α] [Mul α] (m a b : NativeMatrixImpl α) :
    Bool × NativeMatrixImpl α :=
  if a.cols ≠ b.cols then
    (false, m)
  else
    (true, assign (resize m a.rows b.rows)
      (dot a.cols.toNat (coeff a) (fun k j => coeff b j k)))

/-- Source `multAddTransB`. -/
def multAddTransB [Inhabited α] [Zero α] [Add α] [Mul α] (m a b : NativeMatrixImpl α) :
    Bool × NativeMatrixImpl α :=
  if a.rows ≠ m.rows ∨ b.rows ≠ m.cols ∨ a.cols ≠ b.cols then
    (false, m)
  else
    (true, assign m fun i j =>
      coeff m i j + dot a.cols.toNat (coeff a) (fun k j => coeff b j k) i j)

/-- Source `addBlock`, with the sums taken over the integers. -/
def addBlock [Inhabited α] [Add α] [Mul α] (m a : NativeMatrixImpl α)
    (destStartRow destStartColumn srcStartRow srcStartColumn numberOfRows numberOfColumns : Int)
    (scale : α) : Bool × NativeMatrixImpl α :=
  if destStartRow < 0 ∨ destStartColumn < 0 ∨ srcStartRow < 0 ∨ srcStartColumn < 0
      ∨ numberOfRows < 0 ∨ numberOfColumns < 0 then
    (false, m)
  else if m.rows < destStartRow + numberOfRows then
    (false, m)
  else if m.cols < destStartColumn + numberOfColumns then
    (false, m)
  else if a.rows < srcStartRow + numberOfRows then
    (false, m)
  else if a.cols < srcStartColumn + numberOfColumns then
    (false, m)
  else
    (true, assignBlock m destStartRow destStartColumn numberOfRows numberOfColumns fun i j =>
      coeff m (destStartRow.toNat + i) (destStartColumn.toNat + j)
        + scale * coeff a (srcStartRow.toNat + i) (srcStartColumn.toNat + j))

/-- Source `multAddBlock`, with the differences taken over the integers. -/
def multAddBlock [Inhabited α] [Zero α] [Add α] [Mul α] (m a b : NativeMatrixImpl α)
    (rowStart colStart : Int) : Bool × NativeMatrixImpl α :=
  if rowStart < 0 ∨ colStart < 0 then
    (false, m)
  else if a.cols ≠ b.rows then
    (false, m)
  else if m.rows - rowStart < a.rows then
    (false, m)
  else if m.cols - colStart < b.cols then
    (false, m)
  else
    (true, assignBlock m rowStart colStart a.rows b.cols fun i j =>
      coeff m (rowStart.toNat + i) (colStart.toNat + j)
        + dot a.cols.toNat (coeff a) (coeff b) i j)

/-- Source `multQuad`. -/
def multQuad [Inhabited α] [Zero α] [Add α] [Mul α] (m a b : NativeMatrixImpl α) :
    Bool × NativeMatrixImpl α :=
  if a.rows ≠ b.cols ∨ b.cols ≠ b.rows then
    (false, m)
  else
    (true, assign (resize m a.cols a.cols)
      (dot a.rows.toNat (dot a.rows.toNat (fun i k => coeff a k i) (coeff b)) (coeff a)))

/-! ## Decomposition-based operations -/

/-- Source `invert`. -/
def invert [Inhabited α] (E : Kernels α) (m a : NativeMatrixImpl α) : Bool × NativeMatrixImpl α :=
  if a.rows ≠ a.cols then
    (false, m)
  else
    (true, assign (resize m a.rows a.cols) (E.luInverse a.rows.toNat (coeff a)))

/-- Source `solve`. -/
def solve [Inhabited α] (E : Kernels α) (m a b : NativeMatrixImpl α) :
    Bool × NativeMatrixImpl α :=
  if a.rows ≠ b.rows ∨ b.cols ≠ 1 ∨ a.cols ≠ a.rows then
    (false, m)
  else
    (true, assign (resize m a.cols 1) fun i _ =>
      E.luSolve a.rows.toNat (coeff a) (fun k => coeff b k 0) i)

/-- Source `solveCheck`. -/
def solveCheck [Inhabited α] (E : Kernels α) (m a b : NativeMatrixImpl α) :
    Bool × NativeMatrixImpl α :=
  if a.rows ≠ b.rows ∨ b.cols ≠ 1 ∨ a.cols ≠ a.rows then
    (false, m)
  else
    let m1 := resize m a.cols 1
    if E.isInvertible a.rows.toNat (coeff a) then
      (true, assign m1 fun i _ =>
        E.fullPivSolve a.rows.toNat (coeff a) (fun k => coeff b k 0) i)
    else
      (false, assign m1 fun _ _ => E.nan)

/-! ## Block copies -/

/-- Source `insert(NativeMatrixImpl *src, ...)`, with the sums taken over the
integers. -/
def insert [Inhabited α] (m src : NativeMatrixImpl α) (srcY0 srcY1 srcX0 srcX1 dstY0 dstX0 : Int) :
    Bool × NativeMatrixImpl α :=
  if srcY0 < 0 ∨ srcY1 < 0 ∨ srcX0 < 0 ∨ srcX1 < 0 ∨ dstY0 < 0 ∨ dstX0 < 0 then
    (false, m)
  else if srcY1 < srcY0 ∨ srcY0 < 0 ∨ srcY1 > src.rows then
    (false, m)
  else if srcX1 < srcX0 ∨ srcX0 < 0 ∨ srcX1 > src.cols then
    (false, m)
  else
    let w := srcX1 - srcX0
    let h := srcY1 - srcY0
    if dstY0 + h > m.rows then
      (false, m)
    else if dstX0 + w > m.cols then
      (false, m)
    else
      (true, assignBlock m dstY0 dstX0 h w fun i j =>
        coeff src (srcY0.toNat + i) (srcX0.toNat + j))

/-- Source `insert(double *src, ...)`; `none` is the null pointer. -/
def insertBuffer [Inhabited α] (m : NativeMatrixImpl α) (src : Option (List α))
    (srcRows srcCols srcY0 srcY1 srcX0 srcX1 dstY0 dstX0 : Int) : Bool × NativeMatrixImpl α :=
  match src with
  | none => (false, m)
  | some data =>
    if srcY0 < 0 ∨ srcY1 < 0 ∨ srcX0 < 0 ∨ srcX1 < 0 ∨ dstY0 < 0 ∨ dstX0 < 0 then
      (false, m)
    else if srcY1 < srcY0 ∨ srcY0 < 0 ∨ srcY1 > srcRows then
      (false, m)
    else if srcX1 < srcX0 ∨ srcX0 < 0 ∨ srcX1 > srcCols then
      (false, m)
    else
      let w := srcX1 - srcX0
      let h := srcY1 - srcY0
      if dstY0 + h > m.rows then
        (false, m)
      else if dstX0 + w > m.cols then
        (false, m)
      else
        (true, assignBlock m dstY0 dstX0 h w fun i j =>
          rowMajorCoeff data srcCols (srcY0.toNat + i) (srcX0.toNat + j))

/-- Source `extract`; the second component is the destination buffer after the
call (`none` is the null pointer).  The matrix itself is not written. -/
def extract [Inhabited α] (m : NativeMatrixImpl α) (srcY0 srcY1 srcX0 srcX1 : Int)
    (dst : Option (List α)) (dstRows dstCols dstY0 dstX0 : Int) : Bool × Option (List α) :=
  match dst with
  | none => (false, none)
  | some data =>
    if srcY0 < 0 ∨ srcY1 < 0 ∨ srcX0 < 0 ∨ srcX1 < 0 ∨ dstY0 < 0 ∨ dstX0 < 0 then
      (false, some data)
    else if srcY1 < srcY0 ∨ srcY0 < 0 ∨ srcY1 > m.rows then
      (false, some data)
    else if srcX1 < srcX0 ∨ srcX0 < 0 ∨ srcX1 > m.cols then
      (false, some data)
    else
      let w := srcX1 - srcX0
      let h := srcY1 - srcY0
      if dstY0 + h > dstRows then
        (false, some data)
      else if dstX0 + w > dstCols then
        (false, some data)
      else
        (true, some (assignRowMajorBlock data dstCols dstY0 dstX0 h w fun i j =>
          coeff m (srcY0.toNat + i) (srcX0.toNat + j)))

/-! ## Remaining operations -/

/-- Source `transpose`. -/
def transpose [Inhabited α] (m a : NativeMatrixImpl α) : Bool × NativeMatrixImpl α :=
  (true, assign (resize m a.cols a.rows) fun i j => coeff a j i)

/-- Source `zero`. -/
def zero [Zero α] (m : NativeMatrixImpl α) : NativeMatrixImpl α :=
  assign m fun _ _ => 0

/-- Source `scale`. -/
def scale [Inhabited α] [Mul α] (m : NativeMatrixImpl α) (s : α) (src : NativeMatrixImpl α) :
    Bool × NativeMatrixImpl α :=
  (true, assign (resize m src.rows src.cols) fun i j => s * coeff src i j)

/-- Source `isAprrox`. -/
def isAprrox [Inhabited α] (E : Kernels α) (m other : NativeMatrixImpl α) (precision : α) : Bool :=
  E.isApprox m.rows.toNat m.cols.toNat (coeff m) (coeff other) precision

/-- Source `set(double *data, int rows, int cols)`; `none` is the null
pointer. -/
def setBuffer [Inhabited α] (m : NativeMatrixImpl α) (data : Option (List α)) (rows cols : Int) :
    Bool × NativeMatrixImpl α :=
  match data with
  | none => (false, m)
  | some d => (true, assign (resize m rows cols) (rowMajorCoeff d cols))

/-- Result of an `int` computation whose exact value is `x`: the representative
of `x` modulo `2^32` in `[-2^31, 2^31)`. -/
def wrap32 (x : Int) : Int :=
  (x + 2147483648) % 4294967296 - 2147483648

/-- Source `resize` with `numRows * numCols` computed in `int` before the
comparison with `storage.size()`.  `storage.resize` takes the two dimensions
as 64-bit indices, so the cells it allocates are counted exactly. -/
def resize32 [Inhabited α] (m : NativeMatrixImpl α) (numRows numCols : Int) :
    NativeMatrixImpl α :=
  if numRows = m.rows ∧ numCols = m.cols then
    m
  else
    let m1 := if wrap32 (numRows * numCols) > (m.storage.length : Int) then
        storageResize m numRows numCols
      else m
    updateView m1 numRows numCols

/-- Source `mult(a, b)` over `resize32`. -/
def mult32 [Inhabited α] [Zero α] [Add α] [Mul α] (m a b : NativeMatrixImpl α) :
    Bool × NativeMatrixImpl α :=
  if a.cols ≠ b.rows then
    (false, m)
  else
    (true, assign (resize32 m a.rows b.cols) (dot a.cols.toNat (coeff a) (coeff b)))

/-- Source `addBlock` with the four sums computed in `int`. -/
def addBlock32 [Inhabited α] [Add α] [Mul α] (m a : NativeMatrixImpl α)
    (destStartRow destStartColumn srcStartRow srcStartColumn numberOfRows numberOfColumns : Int)
    (scale : α) : Bool × NativeMatrixImpl α :=
  if destStartRow < 0 ∨ destStartColumn < 0 ∨ srcStartRow < 0 ∨ srcStartColumn < 0
      ∨ numberOfRows < 0 ∨ numberOfColumns < 0 then
    (false, m)
  else if m.rows < wrap32 (destStartRow + numberOfRows) then
    (false, m)
  else if m.cols < wrap32 (destStartColumn + numberOfColumns) then
    (false, m)
  else if a.rows < wrap32 (srcStartRow + numberOfRows) then
    (false, m)
  else if a.cols < wrap32 (srcStartColumn + numberOfColumns) then
    (false, m)
  else
    (true, assignBlock m destStartRow destStartColumn numberOfRows numberOfColumns fun i j =>
      coeff m (destStartRow.toNat + i) (destStartColumn.toNat + j)
        + scale * coeff a (srcStartRow.toNat + i) (srcStartColumn.toNat + j))

/-- Source `multAddBlock` with the two differences computed in `int`. -/
def multAddBlock32 [Inhabited α] [Zero α] [Add α] [Mul α] (m a b : NativeMatrixImpl α)
    (rowStart colStart : Int) : Bool × NativeMatrixImpl α :=
  if rowStart < 0 ∨ colStart < 0 then
    (false, m)
  else if a.cols ≠ b.rows then
    (false, m)
  else if wrap32 (m.rows - rowStart) < a.rows then
    (false, m)
  else if wrap32 (m.cols - colStart) < b.cols then
    (false, m)
  else
    (true, assignBlock m rowStart colStart a.rows b.cols fun i j =>
      coeff m (rowStart.toNat + i) (colStart.toNat + j)
        + dot a.cols.toNat (coeff a) (coeff b) i j)

/-- Source `insert(NativeMatrixImpl *src, ...)` with `w`, `h` and the two sums
computed in `int`. -/
def insert32 [Inhabited α] (m src : NativeMatrixImpl α)
    (srcY0 srcY1 srcX0 srcX1 dstY0 dstX0 : Int) : Bool × NativeMatrixImpl α :=
  if srcY0 < 0 ∨ srcY1 < 0 ∨ srcX0 < 0 ∨ srcX1 < 0 ∨ dstY0 < 0 ∨ dstX0 < 0 then
    (false, m)
  else if srcY1 < srcY0 ∨ srcY0 < 0 ∨ srcY1 > src.rows then
    (false, m)
  else if srcX1 < srcX0 ∨ srcX0 < 0 ∨ srcX1 > src.cols then
    (false, m)
  else
    let w := wrap32 (srcX1 - srcX0)
    let h := wrap32 (srcY1 - srcY0)
    if wrap32 (dstY0 + h) > m.rows then
      (false, m)
    else if wrap32 (dstX0 + w) > m.cols then
      (false, m)
    else
      (true, assignBlock m dstY0 dstX0 h w fun i j =>
        coeff src (srcY0.toNat + i) (srcX0.toNat + j))

/-- Source `insert(double *src, ...)` with `w`, `h` and the two sums computed in
`int`. -/
def insertBuffer32 [Inhabited α] (m : NativeMatrixImpl α) (src : Option (List α))
    (srcRows srcCols srcY0 srcY1 srcX0 srcX1 dstY0 dstX0 : Int) : Bool × NativeMatrixImpl α :=
  match src with
  | none => (false, m)
  | some data =>
    if srcY0 < 0 ∨ srcY1 < 0 ∨ srcX0 < 0 ∨ srcX1 < 0 ∨ dstY0 < 0 ∨ dstX0 < 0 then
      (false, m)
    else if srcY1 < srcY0 ∨ srcY0 < 0 ∨ srcY1 > srcRows then
      (false, m)
    else if srcX1 < srcX0 ∨ srcX0 < 0 ∨ srcX1 > srcCols then
      (false, m)
    else
      let w := wrap32 (srcX1 - srcX0)
      let h := wrap32 (srcY1 - srcY0)
      if wrap32 (dstY0 + h) > m.rows then
        (false, m)
      else if wrap32 (dstX0 + w) > m.cols then
        (false, m)
      else
        (true, assignBlock m dstY0 dstX0 h w fun i j =>
          rowMajorCoeff data srcCols (srcY0.toNat + i) (srcX0.toNat + j))

/-- Source `extract` with `w`, `h` and the two sums computed in `int`. -/
def extract32 [Inhabited α] (m : NativeMatrixImpl α) (srcY0 srcY1 srcX0 srcX1 : Int)
    (dst : Option (List α)) (dstRows dstCols dstY0 dstX0 : Int) : Bool × Option (List α) :=
  match dst with
  | none => (false, none)
  | some data =>
    if srcY0 < 0 ∨ srcY1 < 0 ∨ srcX0 < 0 ∨ srcX1 < 0 ∨ dstY0 < 0 ∨ dstX0 < 0 then
      (false, some data)
    else if srcY1 < srcY0 ∨ srcY0 < 0 ∨ srcY1 > m.rows then
      (false, some data)
    else if srcX1 < srcX0 ∨ srcX0 < 0 ∨ srcX1 > m.cols then
      (false, some data)
    else
      let w := wrap32 (srcX1 - srcX0)
      let h := wrap32 (srcY1 - srcY0)
      if wrap32 (dstY0 + h) > dstRows then
        (false, some data)
      else if wrap32 (dstX0 + w) > dstCols then
        (false, some data)
      else
        (true, some (assignRowMajorBlock data dstCols dstY0 dstX0 h w fun i j =>
          coeff m (srcY0.toNat + i) (srcX0.toNat + j)))

/-! ## Example data -/

/-- Determinant of the leading `n x n` block of `x`, by expansion along the
first row. -/
def exampleDet : Nat → (Nat → Nat → Int) → Int
  | 0, _ => 1
  | n + 1, x =>
    ((List.range (n + 1)).map fun j =>
      (-1) ^ j * x 0 j * exampleDet n fun i k => x (i + 1) (if k < j then k else k + 1)).sum

/-- A second concrete set of kernels over the integers, in which the
invertibility test is exact: a matrix is invertible when its determinant is not
zero.  The solvers return the right-hand side, `nan` is `-1`. -/
def exactKernels : Kernels Int where
  luInverse := fun _ x => x
  luSolve := fun _ _ y => y
  isInvertible := fun n x => decide (exampleDet n x ≠ 0)
  fullPivSolve := fun _ _ y => y
  isApprox := fun _ _ _ _ _ => true
  nan := -1
  isnan := fun x => decide (x = -1)

/-- A concrete set of kernels over the integers, for evaluating the operations
on examples: a matrix counts as invertible when its leading coefficient is not
zero, the solvers return the right-hand side, `nan` is `-1`. -/
def exampleKernels : Kernels Int where
  luInverse := fun _ x => x
  luSolve := fun _ _ y => y
  isInvertible := fun _ x => decide (x 0 0 ≠ 0)
  fullPivSolve := fun _ _ y => y
  isApprox := fun _ _ _ _ _ => true
  nan := -1
  isnan := fun x => decide (x = -1)

/-- Example receiver: the 2 x 3 matrix with columns `(1,2)`, `(3,4)`, `(5,6)`. -/
def exampleM : NativeMatrixImpl Int := ⟨[1, 2, 3, 4, 5, 6], 2, 3⟩

/-- Example operand: the 2 x 2 matrix with rows `(1,3)`, `(2,4)`. -/
def exampleA : NativeMatrixImpl Int := ⟨[1, 2, 3, 4], 2, 2⟩

/-- Example operand: the 2 x 2 matrix with rows `(5,7)`, `(6,8)`. -/
def exampleB : NativeMatrixImpl Int := ⟨[5, 6, 7, 8], 2, 2⟩

/-- Example operand: the singular 2 x 2 matrix with rows `(1,2)`, `(2,4)`. -/
def exampleSingular : NativeMatrixImpl Int := ⟨[1, 2, 2, 4], 2, 2⟩

/-- Example operand: the 2 x 1 matrix with rows `(1)`, `(1)`. -/
def exampleOnes : NativeMatrixImpl Int := ⟨[1, 1], 2, 1⟩

/-- The data-model invariant: non-negative dimensions and a storage that
holds the whole view. -/
def Valid (m : NativeMatrixImpl α) : Prop :=
  0 ≤ m.rows ∧ 0 ≤ m.cols ∧ m.rows * m.cols ≤ (m.capacity : Int)

instance (m : NativeMatrixImpl α) : Decidable (Valid m) :=
  inferInstanceAs (Decidable (0 ≤ m.rows ∧ 0 ≤ m.cols ∧ m.rows * m.cols ≤ (m.capacity : Int)))

end NativeMatrixImpl

open NativeMatrixImpl

/-! ## Buffer lemmas -/

theorem length_writeRun {α : Type} (buf : List α) (base : Nat) (g : Nat → α) (n : Nat) :
    (writeRun buf base g n).length = buf.length := by
  induction n with
  | zero => rfl
  | succ n ih => simp [writeRun, ih]

theorem getElem?_writeRun {α : Type} (buf : List α) (base : Nat) (g : Nat → α) (n k : Nat) :
    (writeRun buf base g n)[k]? =
      if base ≤ k ∧ k < base + n ∧ k < buf.length then some (g (k - base)) else buf[k]? := by
  induction n with
  | zero =>
    have h : ¬ (base ≤ k ∧ k < base + 0 ∧ k < buf.length) := by omega
    simp only [writeRun, h, if_false]
  | succ n ih =>
    simp only [writeRun, List.getElem?_set, length_writeRun, ih]
    by_cases hk : base + n = k
    · subst hk
      by_cases hl : base + n < buf.length
      · simp [hl]
      · have : buf[base + n]? = none := List.getElem?_eq_none (by omega)
        simp [hl, this]
    · simp only [hk, if_false]
      by_cases h1 : base ≤ k ∧ k < base + n ∧ k < buf.length
      · have h2 : base ≤ k ∧ k < base + (n + 1) ∧ k < buf.length := by omega
        simp [h1, h2]
      · have h2 : ¬ (base ≤ k ∧ k < base + (n + 1) ∧ k < buf.length) := by omega
        simp [h1, h2]

theorem length_writeBlock {α : Type} (buf : List α) (stride a0 b0 na : Nat) (f : Nat → Nat → α)
    (nb : Nat) : (writeBlock buf stride a0 b0 na f nb).length = buf.length := by
  induction nb with
  | zero => rfl
  | succ nb ih => simp [writeBlock, length_writeRun, ih]

/-- A cell of the block receives its coefficient, provided the block fits in
one stride and the cell lies inside the buffer. -/
theorem getElem?_writeBlock_hit {α : Type} (buf : List α) (stride a0 b0 na : Nat)
    (f : Nat → Nat → α) (nb a b : Nat) (hfit : a0 + na ≤ stride) (ha : a < na) (hb : b < nb)
    (hlen : (b0 + b) * stride + (a0 + a) < buf.length) :
    (writeBlock buf stride a0 b0 na f nb)[(b0 + b) * stride + (a0 + a)]? = some (f a b) := by
  induction nb with
  | zero => exact absurd hb (Nat.not_lt_zero _)
  | succ nb ih =>
    simp only [writeBlock]
    rw [getElem?_writeRun, length_writeBlock]
    by_cases hbn : b = nb
    · subst hbn
      rw [if_pos (by omega)]
      congr 2
      omega
    · have h1 : (b0 + b + 1) * stride ≤ (b0 + nb) * stride :=
        Nat.mul_le_mul_right stride (by omega)
      have h2 : (b0 + b + 1) * stride = (b0 + b) * stride + stride := by ring
      rw [if_neg (by omega)]
      exact ih (by omega)

/-- A cell that is not addressed by the block keeps its content. -/
theorem getElem?_writeBlock_miss {α : Type} (buf : List α) (stride a0 b0 na : Nat)
    (f : Nat → Nat → α) (nb k : Nat)
    (hk : ∀ a b, a < na → b < nb → k ≠ (b0 + b) * stride + (a0 + a)) :
    (writeBlock buf stride a0 b0 na f nb)[k]? = buf[k]? := by
  induction nb with
  | zero => rfl
  | succ nb ih =>
    simp only [writeBlock]
    rw [getElem?_writeRun, length_writeBlock]
    by_cases hin : (b0 + nb) * stride + a0 ≤ k ∧ k < (b0 + nb) * stride + a0 + na ∧ k < buf.length
    · exfalso
      exact hk (k - ((b0 + nb) * stride + a0)) nb (by omega) (by omega) (by omega)
    · rw [if_neg hin]
      exact ih fun a b ha hb => hk a b ha (by omega)

theorem some_getD_eq_getElem? {α : Type} (l : List α) (i : Nat) (d : α) (h : i < l.length) :
    some (l.getD i d) = l[i]? := by
  simp [List.getD_eq_getElem?_getD, List.getElem?_eq_getElem h]

theorem memmove_natCast {α : Type} [Inhabited α] (data : List α) (dst src n : Nat)
    (h1 : dst + n ≤ data.length) (h2 : src + n ≤ data.length) :
    memmove data (dst : Int) (src : Int) (n : Int)
      = some (writeRun data dst (fun i => data.getD (src + i) default) n) := by
  unfold memmove
  rw [if_pos]
  · simp
  · refine ⟨by omega, by omega, by omega, ?_, ?_⟩ <;> exact_mod_cast (by omega)

theorem getElem?_memmove_run {α : Type} [Inhabited α] (data : List α) (dst src n k : Nat)
    (h1 : dst + n ≤ data.length) (h2 : src + n ≤ data.length) :
    (writeRun data dst (fun i => data.getD (src + i) default) n)[k]? =
      if dst ≤ k ∧ k < dst + n then data[src + (k - dst)]? else data[k]? := by
  rw [getElem?_writeRun]
  by_cases h : dst ≤ k ∧ k < dst + n
  · have h3 : dst ≤ k ∧ k < dst + n ∧ k < data.length := by omega
    rw [if_pos h, if_pos h3]
    exact some_getD_eq_getElem? _ _ _ (by omega)
  · have h3 : ¬ (dst ≤ k ∧ k < dst + n ∧ k < data.length) := by omega
    rw [if_neg h, if_neg h3]

theorem length_memmove {α : Type} [Inhabited α] (data d : List α) (dst src n : Int)
    (h : memmove data dst src n = some d) : d.length = data.length := by
  unfold memmove at h
  split at h
  · cases h
    exact length_writeRun _ _ _ _
  · cases h

theorem length_removeRowLoop {α : Type} [Inhabited α] (oldRows newRows r : Int) (data : List α)
    (n : Nat) (d : List α) (h : removeRowLoop oldRows newRows r data n = some d) :
    d.length = data.length := by
  induction n generalizing d with
  | zero =>
    cases h
    rfl
  | succ n ih =>
    simp only [removeRowLoop] at h
    cases hn : removeRowLoop oldRows newRows r data n with
    | none => simp [hn] at h
    | some d0 =>
      rw [hn, Option.some_bind] at h
      rw [length_memmove _ _ _ _ _ h]
      exact ih d0 hn

/-! ## Shape and capacity of the primitives -/

theorem capacity_assign {α : Type} (m : NativeMatrixImpl α) (f : Nat → Nat → α) :
    (assign m f).capacity = m.capacity ∧ (assign m f).rows = m.rows
      ∧ (assign m f).cols = m.cols :=
  ⟨length_writeBlock _ _ _ _ _ _ _, rfl, rfl⟩

theorem capacity_assignBlock {α : Type} (m : NativeMatrixImpl α) (r0 c0 h w : Int)
    (f : Nat → Nat → α) :
    (assignBlock m r0 c0 h w f).capacity = m.capacity ∧ (assignBlock m r0 c0 h w f).rows = m.rows
      ∧ (assignBlock m r0 c0 h w f).cols = m.cols :=
  ⟨length_writeBlock _ _ _ _ _ _ _, rfl, rfl⟩

theorem shape_resize {α : Type} [Inhabited α] (m : NativeMatrixImpl α) (r c : Int) :
    (resize m r c).rows = r ∧ (resize m r c).cols = c := by
  unfold resize
  split
  · rename_i h
    exact ⟨h.1.symm, h.2.symm⟩
  · exact ⟨rfl, rfl⟩

theorem valid_assign {α : Type} (m : NativeMatrixImpl α) (f : Nat → Nat → α) (hm : Valid m) :
    Valid (assign m f) := by
  obtain ⟨h1, h2, h3⟩ := capacity_assign m f
  unfold Valid at hm ⊢
  rw [h1, h2, h3]
  exact hm

theorem valid_assignBlock {α : Type} (m : NativeMatrixImpl α) (r0 c0 h w : Int)
    (f : Nat → Nat → α) (hm : Valid m) : Valid (assignBlock m r0 c0 h w f) := by
  obtain ⟨h1, h2, h3⟩ := capacity_assignBlock m r0 c0 h w f
  unfold Valid at hm ⊢
  rw [h1, h2, h3]
  exact hm

theorem valid_resize {α : Type} [Inhabited α] (m : NativeMatrixImpl α) (r c : Int) (hm : Valid m)
    (hr : 0 ≤ r) (hc : 0 ≤ c) : Valid (resize m r c) := by
  unfold resize
  split
  · exact hm
  · refine ⟨hr, hc, ?_⟩
    simp only [updateView, capacity]
    split
    · simp only [storageResize, List.length_replicate]
      rw [Int.toNat_of_nonneg (Int.mul_nonneg hr hc)]
    · rename_i h
      simpa using h

theorem valid_new {α : Type} [Inhabited α] (r c : Int) (hr : 0 ≤ r) (hc : 0 ≤ c) :
    Valid (new r c : NativeMatrixImpl α) := by
  refine ⟨hr, hc, ?_⟩
  simp only [new, updateView, storageResize, capacity, List.length_replicate]
  rw [Int.toNat_of_nonneg (Int.mul_nonneg hr hc)]

theorem valid_removeRow {α : Type} [Inhabited α] (m : NativeMatrixImpl α) (r : Int)
    (res : Bool × NativeMatrixImpl α) (hm : Valid m) (h : removeRow m r = some res) :
    Valid res.2 ∧ res.2.capacity = m.capacity := by
  obtain ⟨h1, h2, h3⟩ := hm
  unfold removeRow at h
  split at h
  · cases h
    exact ⟨⟨h1, h2, h3⟩, rfl⟩
  · split at h
    · cases h
      refine ⟨⟨le_refl _, h2, ?_⟩, rfl⟩
      simp [updateView, capacity]
    · rename_i hr hrows
      simp only [Option.bind_eq_some, Option.map_eq_some'] at h
      obtain ⟨d1, hd1, d2, hd2, rfl⟩ := h
      have hl : d2.length = m.storage.length := by
        rw [length_memmove _ _ _ _ _ hd2, length_removeRowLoop _ _ _ _ _ _ hd1]
      refine ⟨⟨?_, h2, ?_⟩, hl⟩
      · simp only [updateView]
        omega
      · simp only [updateView, capacity, hl]
        simp only [capacity] at h3
        nlinarith

theorem valid_removeColumn {α : Type} [Inhabited α] (m : NativeMatrixImpl α) (c : Int)
    (res : Bool × NativeMatrixImpl α) (hm : Valid m) (h : removeColumn m c = some res) :
    Valid res.2 ∧ res.2.capacity = m.capacity := by
  obtain ⟨h1, h2, h3⟩ := hm
  unfold removeColumn at h
  split at h
  · cases h
    exact ⟨⟨h1, h2, h3⟩, rfl⟩
  · split at h
    · cases h
      refine ⟨⟨h1, le_refl _, ?_⟩, rfl⟩
      simp [updateView, capacity]
    · rename_i hc hcols
      simp only [Option.map_eq_some'] at h
      obtain ⟨d, hd, rfl⟩ := h
      have hl : d.length = m.storage.length := length_memmove _ _ _ _ _ hd
      refine ⟨⟨h1, ?_, ?_⟩, hl⟩
      · simp only [updateView]
        omega
      · simp only [updateView, capacity, hl]
        simp only [capacity] at h3
        nlinarith

/-! ## Row removal -/

/-- State of the buffer after `n` iterations of the loop of `removeRow`, for a
view with `N + 1` rows: the cells `col * N + r + t` (`col < n`, `t < N`) hold
the old cells `col * (N + 1) + r + 1 + t`, every cell below `r` or from
`n * N + r` on is untouched. -/
theorem removeRowLoop_spec {α : Type} [Inhabited α] (buf : List α) (N r : Nat) (hr : r ≤ N)
    (n : Nat) (hlen : (n + 1) * (N + 1) ≤ buf.length) :
    ∃ d, removeRowLoop ((N : Int) + 1) ((N : Int) + 1 - 1) (r : Int) buf n = some d
      ∧ d.length = buf.length
      ∧ (∀ col t, col < n → t < N → d[col * N + r + t]? = buf[col * (N + 1) + r + 1 + t]?)
      ∧ (∀ k, (k < r ∨ n * N + r ≤ k) → d[k]? = buf[k]?) := by
  induction n with
  | zero =>
    exact ⟨buf, rfl, rfl, fun _ _ h => absurd h (Nat.not_lt_zero _), fun _ _ => rfl⟩
  | succ n ih =>
    have hmul : (n + 1 + 1) * (N + 1) = (n + 1) * (N + 1) + (N + 1) := by ring
    have hmul2 : (n + 1) * (N + 1) = n * N + n + N + 1 := by ring
    obtain ⟨d, hd, hdl, hhit, hmiss⟩ := ih (by omega)
    have e1 : ((n : Int) * ((N : Int) + 1 - 1) + (r : Int)) = ((n * N + r : Nat) : Int) := by
      push_cast; ring
    have e2 : ((n : Int) * ((N : Int) + 1) + (r : Int) + 1)
        = ((n * (N + 1) + r + 1 : Nat) : Int) := by
      push_cast; ring
    have e3 : ((N : Int) + 1 - 1) = ((N : Nat) : Int) := by ring
    have hn1 : n * (N + 1) = n * N + n := by ring
    have b1 : n * N + r + N ≤ d.length := by omega
    have b2 : n * (N + 1) + r + 1 + N ≤ d.length := by omega
    refine ⟨writeRun d (n * N + r) (fun i => d.getD (n * (N + 1) + r + 1 + i) default) N,
      ?_, ?_, ?_, ?_⟩
    · simp only [removeRowLoop, hd, Option.some_bind]
      rw [e1, e2, e3]
      exact memmove_natCast d _ _ _ b1 b2
    · rw [length_writeRun, hdl]
    · intro col t hcol ht
      rw [getElem?_memmove_run d _ _ _ _ b1 b2]
      by_cases hc : col = n
      · subst hc
        rw [if_pos (by omega)]
        have : col * (N + 1) + r + 1 + (col * N + r + t - (col * N + r))
            = col * (N + 1) + r + 1 + t := by omega
        rw [this]
        exact hmiss _ (by omega)
      · have hle : (col + 1) * N ≤ n * N := Nat.mul_le_mul_right N (by omega)
        have hs : (col + 1) * N = col * N + N := by ring
        rw [if_neg (by omega)]
        exact hhit col t (by omega) ht
    · intro k hk
      have hs : (n + 1) * N = n * N + N := by ring
      rw [getElem?_memmove_run d _ _ _ _ b1 b2, if_neg (by omega)]
      exact hmiss k (by omega)

/-- What `removeRow` does to a view with `N + 1 ≥ 2` rows and `Cp + 1 ≥ 1` columns
that fits in its storage. -/
theorem removeRow_spec_nat {α : Type} [Inhabited α] (buf : List α) (N Cp r : Nat) (hr : r ≤ N)
    (hN : 1 ≤ N) (hlen : (Cp + 1) * (N + 1) ≤ buf.length) :
    ∃ d, removeRow ⟨buf, (N : Int) + 1, (Cp : Int) + 1⟩ (r : Int)
        = some (true, ⟨d, (N : Int) + 1 - 1, (Cp : Int) + 1⟩)
      ∧ d.length = buf.length
      ∧ (∀ c i, c < Cp + 1 → i < N →
          d[c * N + i]? = buf[c * (N + 1) + (if i < r then i else i + 1)]?)
      ∧ (∀ k, (Cp + 1) * N ≤ k → d[k]? = buf[k]?) := by
  obtain ⟨d1, hd1, hl1, hhit, hmiss⟩ := removeRowLoop_spec buf N r hr Cp hlen
  have hmul : (Cp + 1) * (N + 1) = Cp * N + Cp + N + 1 := by ring
  have hmul2 : Cp * (N + 1) = Cp * N + Cp := by ring
  have hmul3 : (Cp + 1) * N = Cp * N + N := by ring
  have e0 : ((Cp : Int) + 1 - 1).toNat = Cp := by simp
  have e1 : (((Cp : Int) + 1 - 1) * ((N : Int) + 1 - 1) + (r : Int)) = ((Cp * N + r : Nat) : Int) := by
    push_cast; ring
  have e2 : (((Cp : Int) + 1 - 1) * ((N : Int) + 1) + (r : Int) + 1)
      = ((Cp * (N + 1) + r + 1 : Nat) : Int) := by
    push_cast; ring
  have e3 : ((N : Int) + 1 - 1 - (r : Int)) = ((N - r : Nat) : Int) := by
    push_cast [hr]; ring
  have b1 : Cp * N + r + (N - r) ≤ d1.length := by omega
  have b2 : Cp * (N + 1) + r + 1 + (N - r) ≤ d1.length := by omega
  have c1 : ¬ ((r : Int) ≥ (N : Int) + 1 ∨ (r : Int) < 0) := by omega
  have c2 : ¬ ((N : Int) + 1 ≤ 1) := by omega
  refine ⟨writeRun d1 (Cp * N + r) (fun i => d1.getD (Cp * (N + 1) + r + 1 + i) default) (N - r),
    ?_, ?_, ?_, ?_⟩
  · simp only [removeRow, if_neg c1, if_neg c2, e0, hd1, Option.some_bind, updateView]
    rw [e1, e2, e3, memmove_natCast d1 _ _ _ b1 b2]
    rfl
  · rw [length_writeRun, hl1]
  · intro c i hc hi
    rw [getElem?_memmove_run d1 _ _ _ _ b1 b2]
    have hcN : c * N ≤ Cp * N := Nat.mul_le_mul_right N (by omega)
    have hc1 : c * (N + 1) = c * N + c := by ring
    by_cases hir : i < r
    · rw [if_pos hir, if_neg (by omega)]
      rcases Nat.eq_zero_or_pos c with h0 | hpos
      · subst h0
        simpa using hmiss i (by omega)
      · obtain ⟨c', rfl⟩ : ∃ c', c = c' + 1 := ⟨c - 1, by omega⟩
        have hs : (c' + 1) * N = c' * N + N := by ring
        have hs1 : (c' + 1) * (N + 1) = c' * N + c' + N + 1 := by ring
        have hs2 : c' * (N + 1) = c' * N + c' := by ring
        have h := hhit c' (N - r + i) (by omega) (by omega)
        have i1 : c' * N + r + (N - r + i) = (c' + 1) * N + i := by omega
        have i2 : c' * (N + 1) + r + 1 + (N - r + i) = (c' + 1) * (N + 1) + i := by omega
        rw [i1, i2] at h
        exact h
    · rw [if_neg hir]
      by_cases hcl : c = Cp
      · subst hcl
        rw [if_pos (by omega)]
        have i1 : c * (N + 1) + r + 1 + (c * N + i - (c * N + r)) = c * (N + 1) + (i + 1) := by
          omega
        rw [i1]
        exact hmiss _ (by omega)
      · have hcN1 : (c + 1) * N ≤ Cp * N := Nat.mul_le_mul_right N (by omega)
        have hs : (c + 1) * N = c * N + N := by ring
        rw [if_neg (by omega)]
        have h := hhit c (i - r) (by omega) (by omega)
        have i1 : c * N + r + (i - r) = c * N + i := by omega
        have i2 : c * (N + 1) + r + 1 + (i - r) = c * (N + 1) + (i + 1) := by omega
        rw [i1, i2] at h
        exact h
  · intro k hk
    rw [getElem?_memmove_run d1 _ _ _ _ b1 b2, if_neg (by omega)]
    exact hmiss k (by omega)

/-! ## Column removal -/

/-- What `removeColumn` does to a view with `R` rows and `c + e + 1 ≥ 2` columns
that fits in its storage, when column `c` is removed: one move of `e * R` cells
by `R` positions. -/
theorem removeColumn_spec_nat {α : Type} [Inhabited α] (buf : List α) (R c e : Nat)
    (hce : 1 ≤ c + e) (hlen : (c + e + 1) * R ≤ buf.length) :
    ∃ d, removeColumn ⟨buf, (R : Int), ((c + e + 1 : Nat) : Int)⟩ (c : Int)
        = some (true, ⟨d, (R : Int), ((c + e + 1 : Nat) : Int) - 1⟩)
      ∧ d.length = buf.length
      ∧ (∀ k, k < e * R → d[c * R + k]? = buf[c * R + R + k]?)
      ∧ (∀ k, (k < c * R ∨ (c + e) * R ≤ k) → d[k]? = buf[k]?) := by
  have hmul : (c + e + 1) * R = c * R + e * R + R := by ring
  have hmul2 : (c + e) * R = c * R + e * R := by ring
  have hmul3 : (c + 1) * R = c * R + R := by ring
  have e1 : ((c : Int) * (R : Int)) = ((c * R : Nat) : Int) := by push_cast; ring
  have e2 : (((c : Int) + 1) * (R : Int)) = (((c + 1) * R : Nat) : Int) := by push_cast; ring
  have e3 : ((((c + e + 1 : Nat) : Int) - 1 - (c : Int)) * (R : Int)) = ((e * R : Nat) : Int) := by
    push_cast; ring
  have b1 : c * R + e * R ≤ buf.length := by omega
  have b2 : (c + 1) * R + e * R ≤ buf.length := by omega
  have c1 : ¬ ((c : Int) ≥ ((c + e + 1 : Nat) : Int) ∨ (c : Int) < 0) := by omega
  have c2 : ¬ (((c + e + 1 : Nat) : Int) ≤ 1) := by omega
  refine ⟨writeRun buf (c * R) (fun i => buf.getD ((c + 1) * R + i) default) (e * R),
    ?_, ?_, ?_, ?_⟩
  · simp only [removeColumn, if_neg c1, if_neg c2, updateView]
    rw [e1, e2, e3, memmove_natCast buf _ _ _ b1 b2]
    rfl
  · rw [length_writeRun]
  · intro k hk
    rw [getElem?_memmove_run buf _ _ _ _ b1 b2, if_pos (by omega)]
    congr 1
    omega
  · intro k hk
    rw [getElem?_memmove_run buf _ _ _ _ b1 b2, if_neg (by omega)]

/-- Every in-range cell of the storage is the coefficient it holds. -/
theorem getElem?_eq_some_coeff {α : Type} [Inhabited α] (m : NativeMatrixImpl α) (i j R : Nat)
    (hR : m.rows = (R : Int)) (h : j * R + i < m.storage.length) :
    m.storage[j * R + i]? = some (coeff m i j) := by
  unfold coeff
  rw [hR, Int.toNat_ofNat]
  exact (some_getD_eq_getElem? _ _ _ h).symm

/-- A cell `(i, j)` of an `R x C` view lies inside `R * C` cells. -/
theorem cell_lt {R C i j : Nat} (hi : i < R) (hj : j < C) : j * R + i < C * R := by
  have h1 : (j + 1) * R ≤ C * R := Nat.mul_le_mul_right R hj
  have h2 : (j + 1) * R = j * R + R := by ring
  omega

/-- For a view with at least one column `removeRow` succeeds at every valid
index: the shape becomes `(rows - 1, cols)`, the capacity is kept and the new
cell `(i, c)`, at offset `c * (rows - 1) + i`, is the old coefficient `(i, c)`
above the removed row and `(i + 1, c)` from it on. -/
theorem removeRow_correct {α : Type} [Inhabited α] (m : NativeMatrixImpl α) (r : Int)
    (hinv : Valid m) (hcols : 1 ≤ m.cols) (hr0 : 0 ≤ r) (hr : r < m.rows) :
    ∃ m', removeRow m r = some (true, m')
      ∧ m'.rows = m.rows - 1 ∧ m'.cols = m.cols ∧ m'.capacity = m.capacity
      ∧ ∀ c i : Nat, (c : Int) < m.cols → (i : Int) < m.rows - 1 →
          m'.storage[c * m'.rows.toNat + i]?
            = some (coeff m (if (i : Int) < r then i else i + 1) c) := by
  obtain ⟨buf, rows, cols⟩ := m
  obtain ⟨h1, h2, h3⟩ := hinv
  simp only [capacity] at h1 h2 h3 hcols hr ⊢
  obtain ⟨R, rfl⟩ := Int.eq_ofNat_of_zero_le h1
  obtain ⟨C, rfl⟩ := Int.eq_ofNat_of_zero_le h2
  obtain ⟨r, rfl⟩ := Int.eq_ofNat_of_zero_le hr0
  have hlen : C * R ≤ buf.length := by
    have : R * C ≤ buf.length := by exact_mod_cast h3
    rwa [Nat.mul_comm] at this
  by_cases hR1 : R = 1
  · subst hR1
    refine ⟨⟨buf, 0, C⟩, ?_, by simp, rfl, rfl, ?_⟩
    · have c1 : ¬ ((r : Int) ≥ ((1 : Nat) : Int) ∨ (r : Int) < 0) := by omega
      have c2 : ((1 : Nat) : Int) ≤ 1 := by simp
      simp only [removeRow, if_neg c1, if_pos c2, updateView]
    · intro c i _ hi
      exact absurd hi (by simp)
  · obtain ⟨N, rfl⟩ : ∃ N, R = N + 1 := ⟨R - 1, by omega⟩
    obtain ⟨Cp, rfl⟩ : ∃ Cp, C = Cp + 1 := ⟨C - 1, by omega⟩
    obtain ⟨d, hd, hdl, hcell, -⟩ :=
      removeRow_spec_nat buf N Cp r (by omega) (by omega) hlen
    refine ⟨⟨d, (N : Int) + 1 - 1, (Cp : Int) + 1⟩, ?_, ?_, ?_, hdl, ?_⟩
    · simpa using hd
    · simp
    · simp
    · intro c i hc hi
      have hc' : c < Cp + 1 := by exact_mod_cast hc
      have hi' : i < N := by
        have : (i : Int) < (N : Int) := by push_cast at hi; omega
        exact_mod_cast this
      have e0 : ((N : Int) + 1 - 1).toNat = N := by simp
      simp only [e0, Nat.cast_lt]
      rw [hcell c i hc' hi']
      have hlt : (if i < r then i else i + 1) < N + 1 := by split <;> omega
      have hin := cell_lt hlt hc'
      exact getElem?_eq_some_coeff ⟨buf, ((N + 1 : Nat) : Int), ((Cp + 1 : Nat) : Int)⟩ _ c (N + 1)
        rfl (Nat.lt_of_lt_of_le hin hlen)

/-- A concrete instance of `removeRow_correct`: removing row 1 of the 3 x 3
matrix with columns `(1,2,3)`, `(4,5,6)`, `(7,8,9)` leaves rows 0 and 2. -/
theorem removeRow_correct_witness :
    ∃ m', removeRow (⟨[1, 2, 3, 4, 5, 6, 7, 8, 9], 3, 3⟩ : NativeMatrixImpl Int) 1 = some (true, m')
      ∧ m'.rows = 3 - 1 ∧ m'.cols = 3 ∧ m'.capacity = 9
      ∧ ∀ c i : Nat, (c : Int) < 3 → (i : Int) < 3 - 1 →
          m'.storage[c * m'.rows.toNat + i]?
            = some (coeff (⟨[1, 2, 3, 4, 5, 6, 7, 8, 9], 3, 3⟩ : NativeMatrixImpl Int)
                (if (i : Int) < 1 then i else i + 1) c) :=
  removeRow_correct ⟨[1, 2, 3, 4, 5, 6, 7, 8, 9], 3, 3⟩ 1 (by decide) (by decide) (by decide)
    (by decide)

/-- On every matrix without columns and with at least two rows `removeRow(r)`
leaves the storage for every `r` but the last row: the final `memmove` gets the
negative offset `-(rows - 1) + r`. -/
theorem removeRow_zero_cols_none {α : Type} [Inhabited α] (m : NativeMatrixImpl α) (r : Int)
    (hc : m.cols = 0) (hr0 : 0 ≤ r) (hr : r + 1 < m.rows) : removeRow m r = none := by
  have c1 : ¬ (r ≥ m.rows ∨ r < 0) := by omega
  have c2 : ¬ (m.rows ≤ 1) := by omega
  have c3 : ¬ (0 ≤ (m.cols - 1) * (m.rows - 1) + r ∧ 0 ≤ (m.cols - 1) * m.rows + r + 1
      ∧ 0 ≤ m.rows - 1 - r
      ∧ (m.cols - 1) * (m.rows - 1) + r + (m.rows - 1 - r) ≤ (m.storage.length : Int)
      ∧ (m.cols - 1) * m.rows + r + 1 + (m.rows - 1 - r) ≤ (m.storage.length : Int)) := by
    rw [hc]
    omega
  simp only [removeRow, if_neg c1, if_neg c2]
  rw [hc]
  have e0 : ((0 : Int) - 1).toNat = 0 := rfl
  simp only [e0, removeRowLoop, Option.some_bind, zero_sub]
  rw [hc] at c3
  simp only [zero_sub] at c3
  simp only [memmove, if_neg c3, Option.map_none']

/-- A concrete instance of `removeRow_zero_cols_none`: a 3 x 0 matrix with six
reserved cells, `removeRow(0)`. -/
theorem removeRow_zero_cols_none_witness :
    removeRow (⟨[0, 0, 0, 0, 0, 0], 3, 0⟩ : NativeMatrixImpl Int) 0 = none :=
  removeRow_zero_cols_none ⟨[0, 0, 0, 0, 0, 0], 3, 0⟩ 0 rfl (by decide) (by decide)

/-- C1 (failing input): on the freshly constructed 2 x 0 matrix `removeRow(0)`
passes both guards, skips the loop and then calls `memmove` with `lastCol = -1`,
that is with the offsets `-1 * 1 + 0 = -1` and `-1 * 2 + 0 + 1 = -1` and one
cell to move: the move lies before the storage, so no result is returned. -/
theorem removeRow_zero_cols_out_of_bounds :
    removeRow (new 2 0 : NativeMatrixImpl Int) 0 = none
      ∧ memmove ([] : List Int) (((0 : Int) - 1) * (2 - 1) + 0) (((0 : Int) - 1) * 2 + 0 + 1)
          (2 - 1 - 0) = none
      ∧ Valid (new 2 0 : NativeMatrixImpl Int) := by
  decide

/-- C3: the predicate `rows ≥ 0`, `cols ≥ 0`, `capacity ≥ rows * cols` (dimensions
as unbounded integers, capacity the number of cells of the storage) holds after
construction with non-negative dimensions and, for a receiver and operands that
satisfy it, after every operation of the layer that leaves a matrix behind:
`resize` and the raw `set` with non-negative dimensions, every arithmetic,
block and decomposition operation, `transpose`, `scale`, `zero`, and every
completed `removeRow` and `removeColumn`.  (`get`, `extract`, `containsNaN`
and `isAprrox` do not write the matrix.) -/
theorem capacity_invariant {α : Type} [Inhabited α] [Zero α] [Add α] [Sub α] [Mul α]
    (E : Kernels α) (m a b : NativeMatrixImpl α) (hm : Valid m) (ha : Valid a) (hb : Valid b) :
    (∀ r c : Int, 0 ≤ r → 0 ≤ c → Valid (new r c : NativeMatrixImpl α))
    ∧ (∀ r c : Int, 0 ≤ r → 0 ≤ c → Valid (resize m r c))
    ∧ Valid (set m a).2
    ∧ Valid (add m a b).2
    ∧ Valid (subtract m a b).2
    ∧ Valid (mult m a b).2
    ∧ (∀ s : α, Valid (multScale m s a b).2)
    ∧ Valid (multAdd m a b).2
    ∧ Valid (multTransA m a b).2
    ∧ Valid (multAddTransA m a b).2
    ∧ Valid (multTransB m a b).2
    ∧ Valid (multAddTransB m a b).2
    ∧ (∀ (dr dc sr sc nr nc : Int) (s : α), Valid (addBlock m a dr dc sr sc nr nc s).2)
    ∧ (∀ rs cs : Int, Valid (multAddBlock m a b rs cs).2)
    ∧ Valid (multQuad m a b).2
    ∧ Valid (invert E m a).2
    ∧ Valid (solve E m a b).2
    ∧ Valid (solveCheck E m a b).2
    ∧ (∀ y0 y1 x0 x1 dy dx : Int, Valid (insert m a y0 y1 x0 x1 dy dx).2)
    ∧ (∀ (src : Option (List α)) (sr sc y0 y1 x0 x1 dy dx : Int),
        Valid (insertBuffer m src sr sc y0 y1 x0 x1 dy dx).2)
    ∧ Valid (transpose m a).2
    ∧ Valid (zero m)
    ∧ (∀ s : α, Valid (scale m s a).2)
    ∧ (∀ (d : Option (List α)) (r c : Int), 0 ≤ r → 0 ≤ c → Valid (setBuffer m d r c).2)
    ∧ (∀ (r : Int) (res : Bool × NativeMatrixImpl α), removeRow m r = some res → Valid res.2)
    ∧ (∀ (c : Int) (res : Bool × NativeMatrixImpl α),
        removeColumn m c = some res → Valid res.2) := by
  have rs : ∀ r c : Int, 0 ≤ r → 0 ≤ c → ∀ f, Valid (assign (resize m r c) f) :=
    fun r c hr hc f => valid_assign _ f (valid_resize m r c hm hr hc)
  obtain ⟨ha1, ha2, -⟩ := ha
  obtain ⟨hb1, hb2, -⟩ := hb
  refine ⟨fun r c => valid_new r c, fun r c => valid_resize m r c hm, ?_, ?_, ?_, ?_, ?_, ?_, ?_,
    ?_, ?_, ?_, ?_, ?_, ?_, ?_, ?_, ?_, ?_, ?_, ?_, ?_, ?_, ?_, ?_, ?_⟩
  · exact rs _ _ ha1 ha2 _
  · unfold add
    split
    · exact hm
    · exact rs _ _ ha1 ha2 _
  · unfold subtract
    split
    · exact hm
    · exact rs _ _ ha1 ha2 _
  · unfold mult
    split
    · exact hm
    · exact rs _ _ ha1 hb2 _
  · intro s
    unfold multScale
    split
    · exact hm
    · exact rs _ _ ha1 hb2 _
  · unfold multAdd
    split
    · exact hm
    · exact valid_assign _ _ hm
  · unfold multTransA
    split
    · exact hm
    · exact rs _ _ ha2 hb2 _
  · unfold multAddTransA
    split
    · exact hm
    · exact valid_assign _ _ hm
  · unfold multTransB
    split
    · exact hm
    · exact rs _ _ ha1 hb1 _
  · unfold multAddTransB
    split
    · exact hm
    · exact valid_assign _ _ hm
  · intro dr dc sr sc nr nc s
    unfold addBlock
    repeat' split
    all_goals first | exact hm | exact valid_assignBlock _ _ _ _ _ _ hm
  · intro rs cs
    unfold multAddBlock
    repeat' split
    all_goals first | exact hm | exact valid_assignBlock _ _ _ _ _ _ hm
  · unfold multQuad
    split
    · exact hm
    · exact rs _ _ ha2 ha2 _
  · unfold invert
    split
    · exact hm
    · exact rs _ _ ha1 ha2 _
  · unfold solve
    split
    · exact hm
    · exact rs _ _ ha2 (by decide) _
  · unfold solveCheck
    split
    · exact hm
    · dsimp only
      split
      · exact rs _ _ ha2 (by decide) _
      · exact rs _ _ ha2 (by decide) _
  · intro y0 y1 x0 x1 dy dx
    unfold NativeMatrixImpl.insert
    dsimp only
    repeat' split
    all_goals first | exact hm | exact valid_assignBlock _ _ _ _ _ _ hm
  · intro src sr sc y0 y1 x0 x1 dy dx
    unfold insertBuffer
    dsimp only
    repeat' split
    all_goals first | exact hm | exact valid_assignBlock _ _ _ _ _ _ hm
  · exact rs _ _ ha2 ha1 _
  · exact valid_assign _ _ hm
  · intro s
    exact rs _ _ ha1 ha2 _
  · intro d r c hr hc
    unfold setBuffer
    split
    · exact hm
    · exact rs _ _ hr hc _
  · intro r res h
    exact (valid_removeRow m r res hm h).1
  · intro c res h
    exact (valid_removeColumn m c res hm h).1

/-- A concrete instance of C3: a 2 x 3 receiver with 2 x 2 operands. -/
theorem capacity_invariant_witness :
    (∀ r c : Int, 0 ≤ r → 0 ≤ c → Valid (new r c : NativeMatrixImpl Int))
    ∧ (∀ r c : Int, 0 ≤ r → 0 ≤ c → Valid (resize exampleM r c))
    ∧ Valid (set exampleM exampleA).2
    ∧ Valid (add exampleM exampleA exampleB).2
    ∧ Valid (subtract exampleM exampleA exampleB).2
    ∧ Valid (mult exampleM exampleA exampleB).2
    ∧ (∀ s : Int, Valid (multScale exampleM s exampleA exampleB).2)
    ∧ Valid (multAdd exampleM exampleA exampleB).2
    ∧ Valid (multTransA exampleM exampleA exampleB).2
    ∧ Valid (multAddTransA exampleM exampleA exampleB).2
    ∧ Valid (multTransB exampleM exampleA exampleB).2
    ∧ Valid (multAddTransB exampleM exampleA exampleB).2
    ∧ (∀ (dr dc sr sc nr nc : Int) (s : Int), Valid (addBlock exampleM exampleA dr dc sr sc nr nc s).2)
    ∧ (∀ rs cs : Int, Valid (multAddBlock exampleM exampleA exampleB rs cs).2)
    ∧ Valid (multQuad exampleM exampleA exampleB).2
    ∧ Valid (invert exampleKernels exampleM exampleA).2
    ∧ Valid (solve exampleKernels exampleM exampleA exampleB).2
    ∧ Valid (solveCheck exampleKernels exampleM exampleA exampleB).2
    ∧ (∀ y0 y1 x0 x1 dy dx : Int, Valid (insert exampleM exampleA y0 y1 x0 x1 dy dx).2)
    ∧ (∀ (src : Option (List Int)) (sr sc y0 y1 x0 x1 dy dx : Int),
        Valid (insertBuffer exampleM src sr sc y0 y1 x0 x1 dy dx).2)
    ∧ Valid (transpose exampleM exampleA).2
    ∧ Valid (zero exampleM)
    ∧ (∀ s : Int, Valid (scale exampleM s exampleA).2)
    ∧ (∀ (d : Option (List Int)) (r c : Int), 0 ≤ r → 0 ≤ c →
        Valid (setBuffer exampleM d r c).2)
    ∧ (∀ (r : Int) (res : Bool × NativeMatrixImpl Int),
        removeRow exampleM r = some res → Valid res.2)
    ∧ (∀ (c : Int) (res : Bool × NativeMatrixImpl Int),
        removeColumn exampleM c = some res → Valid res.2) :=
  capacity_invariant exampleKernels exampleM exampleA exampleB (by decide) (by decide) (by decide)

/-! ## Resize -/

/-- A resize to a shape that fits in the reserved cells keeps the storage. -/
theorem storage_resize_of_le {α : Type} [Inhabited α] (m : NativeMatrixImpl α) (r c : Int)
    (h : r * c ≤ (m.capacity : Int)) : (resize m r c).storage = m.storage := by
  unfold resize
  split
  · rfl
  · have h' : ¬ (r * c > (m.storage.length : Int)) := not_lt.mpr h
    simp only [if_neg h', updateView]

/-- C4: for a matrix that satisfies the data-model invariant, after
`resize(newRows, newCols)` the shape is `(newRows, newCols)`; when
`newRows * newCols ≤ capacity` the storage is the same list of cells (same
capacity, every cell unchanged), so the new coefficient `(r, c)` is the old cell
`c * newRows + r`; when `newRows * newCols > capacity` the capacity becomes
exactly `newRows * newCols`; and a resize to any shape within the capacity
followed by a resize to a shape within the capacity leaves the storage as it
was. -/
theorem resize_postcondition {α : Type} [Inhabited α] (m : NativeMatrixImpl α)
    (newRows newCols : Int) (hm : Valid m) :
    (resize m newRows newCols).rows = newRows
    ∧ (resize m newRows newCols).cols = newCols
    ∧ (newRows * newCols ≤ (m.capacity : Int) →
        (resize m newRows newCols).storage = m.storage
        ∧ (resize m newRows newCols).capacity = m.capacity
        ∧ ∀ r c : Nat, coeff (resize m newRows newCols) r c
            = m.storage.getD (c * newRows.toNat + r) default)
    ∧ (newRows * newCols > (m.capacity : Int) →
        ((resize m newRows newCols).capacity : Int) = newRows * newCols)
    ∧ (∀ r1 c1 : Int, r1 * c1 ≤ (m.capacity : Int) → newRows * newCols ≤ (m.capacity : Int) →
        (resize (resize m r1 c1) newRows newCols).storage = m.storage) := by
  obtain ⟨hs1, hs2⟩ := shape_resize m newRows newCols
  refine ⟨hs1, hs2, ?_, ?_, ?_⟩
  · intro h
    have hst := storage_resize_of_le m newRows newCols h
    refine ⟨hst, ?_, ?_⟩
    · simp only [capacity, hst]
    · intro r c
      simp only [coeff, hst, hs1]
  · intro h
    obtain ⟨h1, h2, h3⟩ := hm
    have hne : ¬ (newRows = m.rows ∧ newCols = m.cols) := by
      rintro ⟨rfl, rfl⟩
      exact absurd h3 (not_le.mpr h)
    have h' : newRows * newCols > (m.storage.length : Int) := h
    simp only [resize, if_neg hne, if_pos h', updateView, storageResize, capacity,
      List.length_replicate]
    exact Int.toNat_of_nonneg (le_trans (Int.ofNat_nonneg _) (le_of_lt h'))
  · intro r1 c1 h1 h2
    have e1 := storage_resize_of_le m r1 c1 h1
    have hcap : (resize m r1 c1).capacity = m.capacity := by simp only [capacity, e1]
    rw [storage_resize_of_le (resize m r1 c1) newRows newCols (by rw [hcap]; exact h2), e1]

/-- A concrete instance of C4: the 2 x 3 example matrix resized to 3 x 1. -/
theorem resize_postcondition_witness :
    (resize exampleM 3 1).rows = 3
    ∧ (resize exampleM 3 1).cols = 1
    ∧ ((3 : Int) * 1 ≤ (exampleM.capacity : Int) →
        (resize exampleM 3 1).storage = exampleM.storage
        ∧ (resize exampleM 3 1).capacity = exampleM.capacity
        ∧ ∀ r c : Nat, coeff (resize exampleM 3 1) r c
            = exampleM.storage.getD (c * (3 : Int).toNat + r) default)
    ∧ ((3 : Int) * 1 > (exampleM.capacity : Int) →
        ((resize exampleM 3 1).capacity : Int) = 3 * 1)
    ∧ (∀ r1 c1 : Int, r1 * c1 ≤ (exampleM.capacity : Int) → (3 : Int) * 1 ≤ (exampleM.capacity : Int) →
        (resize (resize exampleM r1 c1) 3 1).storage = exampleM.storage) :=
  resize_postcondition exampleM 3 1 (by decide)

/-! ## Validation -/

/-- C5: each of `add`, `subtract`, `mult`, `mult(scale, ..)`, `multAdd`,
`multTransA`, `multAddTransA`, `multTransB`, `multAddTransB`, `multQuad`,
`invert` and `solve` returns true exactly when its shape precondition holds,
whatever the cells contain, and a call that returns false leaves the receiver
(shape, capacity and cells) as it was. -/
theorem validate_then_compute {α : Type} [Inhabited α] [Zero α] [Add α] [Sub α] [Mul α]
    (E : Kernels α) (m a b : NativeMatrixImpl α) (s : α) :
    ((add m a b).1 = true ↔ a.rows = b.rows ∧ a.cols = b.cols)
    ∧ ((add m a b).1 = false → (add m a b).2 = m)
    ∧ ((subtract m a b).1 = true ↔ a.rows = b.rows ∧ a.cols = b.cols)
    ∧ ((subtract m a b).1 = false → (subtract m a b).2 = m)
    ∧ ((mult m a b).1 = true ↔ a.cols = b.rows)
    ∧ ((mult m a b).1 = false → (mult m a b).2 = m)
    ∧ ((multScale m s a b).1 = true ↔ a.cols = b.rows)
    ∧ ((multScale m s a b).1 = false → (multScale m s a b).2 = m)
    ∧ ((multAdd m a b).1 = true ↔ a.rows = m.rows ∧ b.cols = m.cols ∧ a.cols = b.rows)
    ∧ ((multAdd m a b).1 = false → (multAdd m a b).2 = m)
    ∧ ((multTransA m a b).1 = true ↔ a.rows = b.rows)
    ∧ ((multTransA m a b).1 = false → (multTransA m a b).2 = m)
    ∧ ((multAddTransA m a b).1 = true ↔ a.cols = m.rows ∧ b.cols = m.cols ∧ a.rows = b.rows)
    ∧ ((multAddTransA m a b).1 = false → (multAddTransA m a b).2 = m)
    ∧ ((multTransB m a b).1 = true ↔ a.cols = b.cols)
    ∧ ((multTransB m a b).1 = false → (multTransB m a b).2 = m)
    ∧ ((multAddTransB m a b).1 = true ↔ a.rows = m.rows ∧ b.rows = m.cols ∧ a.cols = b.cols)
    ∧ ((multAddTransB m a b).1 = false → (multAddTransB m a b).2 = m)
    ∧ ((multQuad m a b).1 = true ↔ a.rows = b.cols ∧ b.cols = b.rows)
    ∧ ((multQuad m a b).1 = false → (multQuad m a b).2 = m)
    ∧ ((invert E m a).1 = true ↔ a.rows = a.cols)
    ∧ ((invert E m a).1 = false → (invert E m a).2 = m)
    ∧ ((solve E m a b).1 = true ↔ a.rows = b.rows ∧ b.cols = 1 ∧ a.cols = a.rows)
    ∧ ((solve E m a b).1 = false → (solve E m a b).2 = m) := by
  refine ⟨?_, ?_, ?_, ?_, ?_, ?_, ?_, ?_, ?_, ?_, ?_, ?_, ?_, ?_, ?_, ?_, ?_, ?_, ?_, ?_, ?_, ?_, ?_, ?_⟩
  · unfold add
    split <;> simp_all
    omega
  · unfold add
    split <;> simp_all
  · unfold subtract
    split <;> simp_all
    omega
  · unfold subtract
    split <;> simp_all
  · unfold mult
    split <;> simp_all
  · unfold mult
    split <;> simp_all
  · unfold multScale
    split <;> simp_all
  · unfold multScale
    split <;> simp_all
  · unfold multAdd
    split <;> simp_all
    omega
  · unfold multAdd
    split <;> simp_all
  · unfold multTransA
    split <;> simp_all
  · unfold multTransA
    split <;> simp_all
  · unfold multAddTransA
    split <;> simp_all
    omega
  · unfold multAddTransA
    split <;> simp_all
  · unfold multTransB
    split <;> simp_all
  · unfold multTransB
    split <;> simp_all
  · unfold multAddTransB
    split <;> simp_all
    omega
  · unfold multAddTransB
    split <;> simp_all
  · unfold multQuad
    split <;> simp_all
    omega
  · unfold multQuad
    split <;> simp_all
  · unfold invert
    split <;> simp_all
  · unfold invert
    split <;> simp_all
  · unfold solve
    split <;> simp_all
    omega
  · unfold solve
    split <;> simp_all

/-- C6: with coordinates read as unbounded integers, `addBlock`, `multAddBlock`,
both overloads of `insert` and `extract` return true exactly when the buffer
(if there is one) is not null, every coordinate is non-negative and the source
and destination rectangles lie inside their matrices; a call that returns false
leaves the receiver, and for `extract` the destination buffer, as it was. -/
theorem block_bounds_checking {α : Type} [Inhabited α] [Zero α] [Add α] [Mul α]
    (m a b : NativeMatrixImpl α) (scale : α) (buffer : Option (List α))
    (destStartRow destStartColumn srcStartRow srcStartColumn numberOfRows numberOfColumns : Int)
    (rowStart colStart : Int)
    (rows cols srcY0 srcY1 srcX0 srcX1 dstY0 dstX0 : Int) :
    ((addBlock m a destStartRow destStartColumn srcStartRow srcStartColumn numberOfRows
          numberOfColumns scale).1 = true ↔
        0 ≤ destStartRow ∧ 0 ≤ destStartColumn ∧ 0 ≤ srcStartRow ∧ 0 ≤ srcStartColumn
          ∧ 0 ≤ numberOfRows ∧ 0 ≤ numberOfColumns
          ∧ destStartRow + numberOfRows ≤ m.rows ∧ destStartColumn + numberOfColumns ≤ m.cols
          ∧ srcStartRow + numberOfRows ≤ a.rows ∧ srcStartColumn + numberOfColumns ≤ a.cols)
    ∧ ((addBlock m a destStartRow destStartColumn srcStartRow srcStartColumn numberOfRows
          numberOfColumns scale).1 = false →
        (addBlock m a destStartRow destStartColumn srcStartRow srcStartColumn numberOfRows
          numberOfColumns scale).2 = m)
    ∧ ((multAddBlock m a b rowStart colStart).1 = true ↔
        0 ≤ rowStart ∧ 0 ≤ colStart ∧ a.cols = b.rows
          ∧ rowStart + a.rows ≤ m.rows ∧ colStart + b.cols ≤ m.cols)
    ∧ ((multAddBlock m a b rowStart colStart).1 = false →
        (multAddBlock m a b rowStart colStart).2 = m)
    ∧ ((insert m a srcY0 srcY1 srcX0 srcX1 dstY0 dstX0).1 = true ↔
        0 ≤ srcY0 ∧ 0 ≤ srcY1 ∧ 0 ≤ srcX0 ∧ 0 ≤ srcX1 ∧ 0 ≤ dstY0 ∧ 0 ≤ dstX0
          ∧ srcY0 ≤ srcY1 ∧ srcY1 ≤ a.rows ∧ srcX0 ≤ srcX1 ∧ srcX1 ≤ a.cols
          ∧ dstY0 + (srcY1 - srcY0) ≤ m.rows ∧ dstX0 + (srcX1 - srcX0) ≤ m.cols)
    ∧ ((insert m a srcY0 srcY1 srcX0 srcX1 dstY0 dstX0).1 = false →
        (insert m a srcY0 srcY1 srcX0 srcX1 dstY0 dstX0).2 = m)
    ∧ ((insertBuffer m buffer rows cols srcY0 srcY1 srcX0 srcX1 dstY0 dstX0).1 = true ↔
        buffer ≠ none
          ∧ 0 ≤ srcY0 ∧ 0 ≤ srcY1 ∧ 0 ≤ srcX0 ∧ 0 ≤ srcX1 ∧ 0 ≤ dstY0 ∧ 0 ≤ dstX0
          ∧ srcY0 ≤ srcY1 ∧ srcY1 ≤ rows ∧ srcX0 ≤ srcX1 ∧ srcX1 ≤ cols
          ∧ dstY0 + (srcY1 - srcY0) ≤ m.rows ∧ dstX0 + (srcX1 - srcX0) ≤ m.cols)
    ∧ ((insertBuffer m buffer rows cols srcY0 srcY1 srcX0 srcX1 dstY0 dstX0).1 = false →
        (insertBuffer m buffer rows cols srcY0 srcY1 srcX0 srcX1 dstY0 dstX0).2 = m)
    ∧ ((extract m srcY0 srcY1 srcX0 srcX1 buffer rows cols dstY0 dstX0).1 = true ↔
        buffer ≠ none
          ∧ 0 ≤ srcY0 ∧ 0 ≤ srcY1 ∧ 0 ≤ srcX0 ∧ 0 ≤ srcX1 ∧ 0 ≤ dstY0 ∧ 0 ≤ dstX0
          ∧ srcY0 ≤ srcY1 ∧ srcY1 ≤ m.rows ∧ srcX0 ≤ srcX1 ∧ srcX1 ≤ m.cols
          ∧ dstY0 + (srcY1 - srcY0) ≤ rows ∧ dstX0 + (srcX1 - srcX0) ≤ cols)
    ∧ ((extract m srcY0 srcY1 srcX0 srcX1 buffer rows cols dstY0 dstX0).1 = false →
        (extract m srcY0 srcY1 srcX0 srcX1 buffer rows cols dstY0 dstX0).2 = buffer) := by
  refine ⟨?_, ?_, ?_, ?_, ?_, ?_, ?_, ?_, ?_, ?_⟩
  · unfold addBlock
    repeat' split
    all_goals simp only [Bool.false_eq_true, false_iff, true_iff]
    all_goals omega
  · unfold addBlock
    repeat' split
    all_goals simp
  · unfold multAddBlock
    repeat' split
    all_goals simp only [Bool.false_eq_true, false_iff, true_iff]
    all_goals omega
  · unfold multAddBlock
    repeat' split
    all_goals simp
  · unfold NativeMatrixImpl.insert
    dsimp only
    repeat' split
    all_goals simp only [Bool.false_eq_true, false_iff, true_iff]
    all_goals omega
  · unfold NativeMatrixImpl.insert
    dsimp only
    repeat' split
    all_goals simp
  · unfold insertBuffer
    dsimp only
    repeat' split
    all_goals simp only [Bool.false_eq_true, false_iff, true_iff, ne_eq, not_true_eq_false,
      false_and, not_false_eq_true, reduceCtorEq, true_and]
    all_goals omega
  · unfold insertBuffer
    dsimp only
    repeat' split
    all_goals simp
  · unfold extract
    dsimp only
    repeat' split
    all_goals simp only [Bool.false_eq_true, false_iff, true_iff, ne_eq, not_true_eq_false,
      false_and, not_false_eq_true, reduceCtorEq, true_and]
    all_goals omega
  · unfold extract
    dsimp only
    repeat' split
    all_goals simp

/-! ## Result shapes -/

/-- C10: whenever they return true, `set(a)`, `add`, `subtract` and `scale`
leave the receiver with shape `(a.rows, a.cols)`, `mult` and the scaled `mult`
with `(a.rows, b.cols)`, `multTransA` with `(a.cols, b.cols)`, `multTransB`
with `(a.rows, b.rows)`, `multQuad` with `(a.cols, a.cols)`, `transpose` with
`(a.cols, a.rows)`, `invert` with `(a.rows, a.cols)` and `solve` with
`(a.cols, 1)`; `multAdd`, `multAddTransA` and `multAddTransB` keep the shape
and the capacity of the receiver on every input, success or failure. -/
theorem result_shapes {α : Type} [Inhabited α] [Zero α] [Add α] [Sub α] [Mul α]
    (E : Kernels α) (m a b : NativeMatrixImpl α) (s : α) :
    ((set m a).1 = true → (set m a).2.rows = a.rows ∧ (set m a).2.cols = a.cols)
    ∧ ((add m a b).1 = true → (add m a b).2.rows = a.rows ∧ (add m a b).2.cols = a.cols)
    ∧ ((subtract m a b).1 = true → (subtract m a b).2.rows = a.rows ∧ (subtract m a b).2.cols = a.cols)
    ∧ ((scale m s a).1 = true → (scale m s a).2.rows = a.rows ∧ (scale m s a).2.cols = a.cols)
    ∧ ((mult m a b).1 = true → (mult m a b).2.rows = a.rows ∧ (mult m a b).2.cols = b.cols)
    ∧ ((multScale m s a b).1 = true → (multScale m s a b).2.rows = a.rows ∧ (multScale m s a b).2.cols = b.cols)
    ∧ ((multTransA m a b).1 = true → (multTransA m a b).2.rows = a.cols ∧ (multTransA m a b).2.cols = b.cols)
    ∧ ((multTransB m a b).1 = true → (multTransB m a b).2.rows = a.rows ∧ (multTransB m a b).2.cols = b.rows)
    ∧ ((multQuad m a b).1 = true → (multQuad m a b).2.rows = a.cols ∧ (multQuad m a b).2.cols = a.cols)
    ∧ ((transpose m a).1 = true → (transpose m a).2.rows = a.cols ∧ (transpose m a).2.cols = a.rows)
    ∧ ((invert E m a).1 = true → (invert E m a).2.rows = a.rows ∧ (invert E m a).2.cols = a.cols)
    ∧ ((solve E m a b).1 = true → (solve E m a b).2.rows = a.cols ∧ (solve E m a b).2.cols = 1)
    ∧ ((multAdd m a b).2.rows = m.rows ∧ (multAdd m a b).2.cols = m.cols
        ∧ (multAdd m a b).2.capacity = m.capacity)
    ∧ ((multAddTransA m a b).2.rows = m.rows ∧ (multAddTransA m a b).2.cols = m.cols
        ∧ (multAddTransA m a b).2.capacity = m.capacity)
    ∧ ((multAddTransB m a b).2.rows = m.rows ∧ (multAddTransB m a b).2.cols = m.cols
        ∧ (multAddTransB m a b).2.capacity = m.capacity) := by
  refine ⟨?_, ?_, ?_, ?_, ?_, ?_, ?_, ?_, ?_, ?_, ?_, ?_, ?_, ?_, ?_⟩
  · intro _
    exact shape_resize _ _ _
  · unfold add
    split
    · intro h
      cases h
    · intro _
      exact shape_resize _ _ _
  · unfold subtract
    split
    · intro h
      cases h
    · intro _
      exact shape_resize _ _ _
  · intro _
    exact shape_resize _ _ _
  · unfold mult
    split
    · intro h
      cases h
    · intro _
      exact shape_resize _ _ _
  · unfold multScale
    split
    · intro h
      cases h
    · intro _
      exact shape_resize _ _ _
  · unfold multTransA
    split
    · intro h
      cases h
    · intro _
      exact shape_resize _ _ _
  · unfold multTransB
    split
    · intro h
      cases h
    · intro _
      exact shape_resize _ _ _
  · unfold multQuad
    split
    · intro h
      cases h
    · intro _
      exact shape_resize _ _ _
  · intro _
    exact shape_resize _ _ _
  · unfold invert
    split
    · intro h
      cases h
    · intro _
      exact shape_resize _ _ _
  · unfold solve
    split
    · intro h
      cases h
    · intro _
      exact shape_resize _ _ _
  · unfold multAdd
    split
    · exact ⟨rfl, rfl, rfl⟩
    · exact ⟨rfl, rfl, (capacity_assign _ _).1⟩
  · unfold multAddTransA
    split
    · exact ⟨rfl, rfl, rfl⟩
    · exact ⟨rfl, rfl, (capacity_assign _ _).1⟩
  · unfold multAddTransB
    split
    · exact ⟨rfl, rfl, rfl⟩
    · exact ⟨rfl, rfl, (capacity_assign _ _).1⟩

/-! ## Guards and frame of the removals -/

/-- On a valid matrix `removeColumn` completes and returns true at every
index `0 ≤ c < cols`. -/
theorem removeColumn_returns_true {α : Type} [Inhabited α] (m : NativeMatrixImpl α) (c : Int)
    (hm : Valid m) (hc0 : 0 ≤ c) (hc : c < m.cols) :
    ∃ m', removeColumn m c = some (true, m') := by
  obtain ⟨buf, rows, cols⟩ := m
  obtain ⟨h1, h2, h3⟩ := hm
  simp only [capacity] at h1 h2 h3 hc ⊢
  obtain ⟨R, rfl⟩ := Int.eq_ofNat_of_zero_le h1
  obtain ⟨C, rfl⟩ := Int.eq_ofNat_of_zero_le h2
  obtain ⟨c, rfl⟩ := Int.eq_ofNat_of_zero_le hc0
  have hlen : C * R ≤ buf.length := by
    have : R * C ≤ buf.length := by exact_mod_cast h3
    rwa [Nat.mul_comm] at this
  have hcC : c < C := by exact_mod_cast hc
  by_cases hC1 : C = 1
  · subst hC1
    have c1 : ¬ ((c : Int) ≥ ((1 : Nat) : Int) ∨ (c : Int) < 0) := by omega
    have c2 : ((1 : Nat) : Int) ≤ 1 := by simp
    exact ⟨updateView ⟨buf, (R : Int), ((1 : Nat) : Int)⟩ (R : Int) 0,
      by simp only [removeColumn, if_neg c1, if_pos c2]⟩
  · obtain ⟨e, rfl⟩ : ∃ e, C = c + e + 1 := ⟨C - 1 - c, by omega⟩
    obtain ⟨d, hd, -⟩ := removeColumn_spec_nat buf R c e (by omega) hlen
    exact ⟨_, hd⟩

/-- Guards and frame of the two removals on a valid matrix: `removeColumn`
returns true exactly for `0 ≤ c < cols`; `removeRow` returns true exactly for
`0 ≤ r < rows` when there is at least one column; outside the index range both
return false with the matrix as it was; every completed call keeps the
capacity. -/
theorem removal_guards_and_frame {α : Type} [Inhabited α] (m : NativeMatrixImpl α) (r c : Int)
    (hm : Valid m) :
    ((∃ m', removeColumn m c = some (true, m')) ↔ 0 ≤ c ∧ c < m.cols)
    ∧ (1 ≤ m.cols → ((∃ m', removeRow m r = some (true, m')) ↔ 0 ≤ r ∧ r < m.rows))
    ∧ (¬ (0 ≤ r ∧ r < m.rows) → removeRow m r = some (false, m))
    ∧ (¬ (0 ≤ c ∧ c < m.cols) → removeColumn m c = some (false, m))
    ∧ (∀ res, removeRow m r = some res →
        res.2.capacity = m.capacity ∧ (res.1 = false → res.2 = m))
    ∧ (∀ res, removeColumn m c = some res →
        res.2.capacity = m.capacity ∧ (res.1 = false → res.2 = m)) := by
  have gr : ¬ (0 ≤ r ∧ r < m.rows) → removeRow m r = some (false, m) := by
    intro h
    have h' : r ≥ m.rows ∨ r < 0 := by omega
    simp only [removeRow, if_pos h']
  have gc : ¬ (0 ≤ c ∧ c < m.cols) → removeColumn m c = some (false, m) := by
    intro h
    have h' : c ≥ m.cols ∨ c < 0 := by omega
    simp only [removeColumn, if_pos h']
  refine ⟨⟨?_, fun h => removeColumn_returns_true m c hm h.1 h.2⟩, fun hcols => ⟨?_, ?_⟩, gr, gc,
    ?_, ?_⟩
  · rintro ⟨m', h⟩
    by_contra hn
    rw [gc hn] at h
    cases h
  · rintro ⟨m', h⟩
    by_contra hn
    rw [gr hn] at h
    cases h
  · intro h
    obtain ⟨m', h', -⟩ := removeRow_correct m r hm hcols h.1 h.2
    exact ⟨m', h'⟩
  · intro res h
    refine ⟨(valid_removeRow m r res hm h).2, ?_⟩
    intro hf
    unfold removeRow at h
    split at h
    · cases h
      rfl
    · split at h
      · cases h
        cases hf
      · simp only [Option.bind_eq_some, Option.map_eq_some'] at h
        obtain ⟨d1, -, d2, -, rfl⟩ := h
        cases hf
  · intro res h
    refine ⟨(valid_removeColumn m c res hm h).2, ?_⟩
    intro hf
    unfold removeColumn at h
    split at h
    · cases h
      rfl
    · split at h
      · cases h
        cases hf
      · simp only [Option.map_eq_some'] at h
        obtain ⟨d, -, rfl⟩ := h
        cases hf

/-- A concrete instance of `removal_guards_and_frame`, on the 2 x 3 example. -/
theorem removal_guards_and_frame_witness :
    ((∃ m', removeColumn exampleM 1 = some (true, m')) ↔ (0 : Int) ≤ 1 ∧ 1 < exampleM.cols)
    ∧ (1 ≤ exampleM.cols →
        ((∃ m', removeRow exampleM 1 = some (true, m')) ↔ (0 : Int) ≤ 1 ∧ 1 < exampleM.rows))
    ∧ (¬ ((0 : Int) ≤ 1 ∧ 1 < exampleM.rows) → removeRow exampleM 1 = some (false, exampleM))
    ∧ (¬ ((0 : Int) ≤ 1 ∧ 1 < exampleM.cols) → removeColumn exampleM 1 = some (false, exampleM))
    ∧ (∀ res, removeRow exampleM 1 = some res →
        res.2.capacity = exampleM.capacity ∧ (res.1 = false → res.2 = exampleM))
    ∧ (∀ res, removeColumn exampleM 1 = some res →
        res.2.capacity = exampleM.capacity ∧ (res.1 = false → res.2 = exampleM)) :=
  removal_guards_and_frame exampleM 1 1 (by decide)

/-- C9 (failing input): the 3 x 0 matrix built by the constructor has no
reserved cell (its storage is empty, so the data pointer is null), it satisfies
the invariant and `1` is a valid row index of it, yet `removeRow(1)` does not
return true: both guards pass, the loop is skipped, and with `lastCol = -1` the
final `memmove` of `remaining = 1` cell is given the offsets
`-1 * 2 + 1 = -1` and `-1 * 3 + 1 + 1 = -1`, one cell before a null pointer. -/
theorem removeRow_valid_index_not_true :
    (new 3 0 : NativeMatrixImpl Int).storage = []
      ∧ Valid (new 3 0 : NativeMatrixImpl Int)
      ∧ (0 : Int) ≤ 1 ∧ (1 : Int) < (new 3 0 : NativeMatrixImpl Int).rows
      ∧ ((new 3 0 : NativeMatrixImpl Int).cols - 1) * ((new 3 0 : NativeMatrixImpl Int).rows - 1) + 1
          = -1
      ∧ ((new 3 0 : NativeMatrixImpl Int).cols - 1) * (new 3 0 : NativeMatrixImpl Int).rows + 1 + 1
          = -1
      ∧ (new 3 0 : NativeMatrixImpl Int).rows - 1 - 1 = 1
      ∧ removeRow (new 3 0 : NativeMatrixImpl Int) 1 = none
      ∧ ¬ ∃ m', removeRow (new 3 0 : NativeMatrixImpl Int) 1 = some (true, m') := by
  refine ⟨by decide, by decide, by decide, by decide, by decide, by decide, by decide, by decide,
    ?_⟩
  rintro ⟨m', h⟩
  have hn : removeRow (new 3 0 : NativeMatrixImpl Int) 1 = none := by decide
  rw [hn] at h
  cases h

/-! ## Raw-buffer interchange -/

/-- Reading back a cell of a block that was just written. -/
theorem getD_writeBlock_hit {α : Type} (buf : List α) (stride a0 b0 na : Nat)
    (f : Nat → Nat → α) (nb a b : Nat) (d : α) (hfit : a0 + na ≤ stride) (ha : a < na)
    (hb : b < nb) (hlen : (b0 + b) * stride + (a0 + a) < buf.length) :
    (writeBlock buf stride a0 b0 na f nb).getD ((b0 + b) * stride + (a0 + a)) d = f a b := by
  rw [List.getD_eq_getElem?_getD, getElem?_writeBlock_hit buf stride a0 b0 na f nb a b hfit ha hb hlen]
  rfl

/-- Buffer-level round trip: a block of a row-major source written into a
column-major storage and read back from there into a row-major destination. -/
theorem insert_extract_core {α : Type} [Inhabited α] (M src out : List α)
    (R dy dx h w sc y0 x0 oc oY oX : Nat) (hfitM : dy + h ≤ R)
    (hlenM : ∀ i j, i < h → j < w → (dx + j) * R + (dy + i) < M.length)
    (hfitO : oX + w ≤ oc)
    (hlenO : ∀ i j, i < h → j < w → (oY + i) * oc + (oX + j) < out.length)
    (hlenS : ∀ i j, i < h → j < w → (y0 + i) * sc + (x0 + j) < src.length)
    (i j : Nat) (hi : i < h) (hj : j < w) :
    (writeBlock out oc oX oY w
        (fun j i =>
          (writeBlock M R dy dx h (fun i j => src.getD ((y0 + i) * sc + (x0 + j)) default) w).getD
            ((dx + j) * R + (dy + i)) default) h)[(oY + i) * oc + (oX + j)]?
      = src[(y0 + i) * sc + (x0 + j)]? := by
  rw [getElem?_writeBlock_hit out oc oX oY w _ h j i hfitO hj hi (hlenO i j hi hj)]
  rw [getD_writeBlock_hit M R dy dx h _ w i j default hfitM hi hj (hlenM i j hi hj)]
  exact some_getD_eq_getElem? _ _ _ (hlenS i j hi hj)

/-- The view of a valid matrix lies inside its storage, in natural numbers. -/
theorem valid_toNat {α : Type} (m : NativeMatrixImpl α) (hm : Valid m) :
    m.cols.toNat * m.rows.toNat ≤ m.storage.length := by
  obtain ⟨h1, h2, h3⟩ := hm
  obtain ⟨R, hR⟩ := Int.eq_ofNat_of_zero_le h1
  obtain ⟨C, hC⟩ := Int.eq_ofNat_of_zero_le h2
  rw [hR, hC] at h3 ⊢
  simp only [capacity] at h3
  have : R * C ≤ m.storage.length := by exact_mod_cast h3
  simpa [Nat.mul_comm] using this

/-- A raw buffer that holds `r * c` cells, in natural numbers. -/
theorem buffer_toNat {α : Type} (l : List α) (r c : Int) (hr : 0 ≤ r) (hc : 0 ≤ c)
    (h : r * c ≤ (l.length : Int)) : r.toNat * c.toNat ≤ l.length := by
  obtain ⟨R, rfl⟩ := Int.eq_ofNat_of_zero_le hr
  obtain ⟨C, rfl⟩ := Int.eq_ofNat_of_zero_le hc
  have : R * C ≤ l.length := by exact_mod_cast h
  simpa using this

/-- A successful raw `insert` has passed every bound and has written the block. -/
theorem insertBuffer_of_true {α : Type} [Inhabited α] (m : NativeMatrixImpl α) (d : List α)
    (sr sc y0 y1 x0 x1 dy dx : Int)
    (h : (insertBuffer m (some d) sr sc y0 y1 x0 x1 dy dx).1 = true) :
    (0 ≤ y0 ∧ y0 ≤ y1 ∧ y1 ≤ sr ∧ 0 ≤ x0 ∧ x0 ≤ x1 ∧ x1 ≤ sc ∧ 0 ≤ dy ∧ 0 ≤ dx
        ∧ dy + (y1 - y0) ≤ m.rows ∧ dx + (x1 - x0) ≤ m.cols)
      ∧ (insertBuffer m (some d) sr sc y0 y1 x0 x1 dy dx).2
          = assignBlock m dy dx (y1 - y0) (x1 - x0) fun i j =>
              rowMajorCoeff d sc (y0.toNat + i) (x0.toNat + j) := by
  revert h
  unfold insertBuffer
  dsimp only
  repeat' split
  all_goals intro h
  all_goals first
    | exact ⟨by omega, rfl⟩
    | cases h

/-- When every bound holds `extract` writes the block to the destination. -/
theorem extract_of_bounds {α : Type} [Inhabited α] (m : NativeMatrixImpl α) (out : List α)
    (y0 y1 x0 x1 dr dc dy dx : Int)
    (hb : 0 ≤ y0 ∧ y0 ≤ y1 ∧ y1 ≤ m.rows ∧ 0 ≤ x0 ∧ x0 ≤ x1 ∧ x1 ≤ m.cols ∧ 0 ≤ dy ∧ 0 ≤ dx
        ∧ dy + (y1 - y0) ≤ dr ∧ dx + (x1 - x0) ≤ dc) :
    extract m y0 y1 x0 x1 (some out) dr dc dy dx
      = (true, some (assignRowMajorBlock out dc dy dx (y1 - y0) (x1 - x0) fun i j =>
          coeff m (y0.toNat + i) (x0.toNat + j))) := by
  unfold extract
  dsimp only
  rw [if_neg (by omega), if_neg (by omega), if_neg (by omega), if_neg (by omega),
    if_neg (by omega)]

/-- C7: for a valid receiver, a row-major source of `srcRows x srcCols` cells and
a raw `insert` of the region `[srcY0, srcY1) x [srcX0, srcX1)` at
`(dstY0, dstX0)` that returns true, the `extract` of the same `h x w` block into
a row-major buffer of `outRows x outCols` cells at `(oY, oX)`, with `oY ≥ 0`,
`oX ≥ 0`, `oY + h ≤ outRows` and `oX + w ≤ outCols`, returns true and leaves at
`(oY + i) * outCols + (oX + j)` exactly the source cell
`(srcY0 + i) * srcCols + (srcX0 + j)`, for all `i < h` and `j < w`. -/
theorem insert_extract_round_trip {α : Type} [Inhabited α] (m : NativeMatrixImpl α)
    (src out : List α)
    (srcRows srcCols srcY0 srcY1 srcX0 srcX1 dstY0 dstX0 outRows outCols oY oX : Int)
    (hm : Valid m) (hsrc : srcRows * srcCols ≤ (src.length : Int))
    (hout : outRows * outCols ≤ (out.length : Int))
    (hins : (insertBuffer m (some src) srcRows srcCols srcY0 srcY1 srcX0 srcX1 dstY0 dstX0).1
      = true)
    (hoY : 0 ≤ oY) (hoX : 0 ≤ oX) (hfitY : oY + (srcY1 - srcY0) ≤ outRows)
    (hfitX : oX + (srcX1 - srcX0) ≤ outCols) :
    ∃ out',
      extract (insertBuffer m (some src) srcRows srcCols srcY0 srcY1 srcX0 srcX1 dstY0 dstX0).2
          dstY0 (dstY0 + (srcY1 - srcY0)) dstX0 (dstX0 + (srcX1 - srcX0))
          (some out) outRows outCols oY oX = (true, some out')
      ∧ out'.length = out.length
      ∧ ∀ i j : Nat, (i : Int) < srcY1 - srcY0 → (j : Int) < srcX1 - srcX0 →
          ∃ v, src[(srcY0.toNat + i) * srcCols.toNat + (srcX0.toNat + j)]? = some v
            ∧ out'[(oY.toNat + i) * outCols.toNat + (oX.toNat + j)]? = some v := by
  obtain ⟨hb, hst⟩ := insertBuffer_of_true m src srcRows srcCols srcY0 srcY1 srcX0 srcX1
    dstY0 dstX0 hins
  rw [hst]
  have hex := extract_of_bounds
    (assignBlock m dstY0 dstX0 (srcY1 - srcY0) (srcX1 - srcX0) fun i j =>
      rowMajorCoeff src srcCols (srcY0.toNat + i) (srcX0.toNat + j))
    out dstY0 (dstY0 + (srcY1 - srcY0)) dstX0 (dstX0 + (srcX1 - srcX0)) outRows outCols oY oX
    ⟨by omega, by omega, by simp only [assignBlock]; omega, by omega, by omega,
      by simp only [assignBlock]; omega, hoY, hoX, by omega, by omega⟩
  rw [add_sub_cancel_left, add_sub_cancel_left] at hex
  refine ⟨_, hex, length_writeBlock _ _ _ _ _ _ _, ?_⟩
  intro i j hi hj
  have hMlen := valid_toNat m hm
  have hSlen := buffer_toNat src srcRows srcCols (by omega) (by omega) hsrc
  have hOlen := buffer_toNat out outRows outCols (by omega) (by omega) hout
  have tR : (m.rows.toNat : Int) = m.rows := Int.toNat_of_nonneg hm.1
  have tC : (m.cols.toNat : Int) = m.cols := Int.toNat_of_nonneg hm.2.1
  have tsr : (srcRows.toNat : Int) = srcRows := Int.toNat_of_nonneg (by omega)
  have tsc : (srcCols.toNat : Int) = srcCols := Int.toNat_of_nonneg (by omega)
  have tor : (outRows.toNat : Int) = outRows := Int.toNat_of_nonneg (by omega)
  have toc : (outCols.toNat : Int) = outCols := Int.toNat_of_nonneg (by omega)
  have ty0 : (srcY0.toNat : Int) = srcY0 := Int.toNat_of_nonneg (by omega)
  have tx0 : (srcX0.toNat : Int) = srcX0 := Int.toNat_of_nonneg (by omega)
  have tdy : (dstY0.toNat : Int) = dstY0 := Int.toNat_of_nonneg (by omega)
  have tdx : (dstX0.toNat : Int) = dstX0 := Int.toNat_of_nonneg (by omega)
  have toY : (oY.toNat : Int) = oY := Int.toNat_of_nonneg hoY
  have toX : (oX.toNat : Int) = oX := Int.toNat_of_nonneg hoX
  have th : ((srcY1 - srcY0).toNat : Int) = srcY1 - srcY0 := Int.toNat_of_nonneg (by omega)
  have tw : ((srcX1 - srcX0).toNat : Int) = srcX1 - srcX0 := Int.toNat_of_nonneg (by omega)
  have hS : (srcY0.toNat + i) * srcCols.toNat + (srcX0.toNat + j) < src.length :=
    Nat.lt_of_lt_of_le (cell_lt (by omega) (by omega)) hSlen
  have key := insert_extract_core m.storage src out m.rows.toNat dstY0.toNat dstX0.toNat
    (srcY1 - srcY0).toNat (srcX1 - srcX0).toNat srcCols.toNat srcY0.toNat srcX0.toNat
    outCols.toNat oY.toNat oX.toNat (by omega)
    (fun i j hi hj => Nat.lt_of_lt_of_le (cell_lt (by omega) (by omega)) hMlen)
    (by omega)
    (fun i j hi hj => Nat.lt_of_lt_of_le (cell_lt (by omega) (by omega)) hOlen)
    (fun i j hi hj => Nat.lt_of_lt_of_le (cell_lt (by omega) (by omega)) hSlen)
    i j (by omega) (by omega)
  exact ⟨src.getD ((srcY0.toNat + i) * srcCols.toNat + (srcX0.toNat + j)) default,
    (some_getD_eq_getElem? _ _ _ hS).symm, key.trans (some_getD_eq_getElem? _ _ _ hS).symm⟩

/-- A concrete instance of C7: the first column of the row-major 2 x 2 buffer
`10 20 / 30 40` is inserted at `(0, 1)` of the 2 x 3 example and extracted to
column 2 of a row-major 2 x 3 buffer of zeros. -/
theorem insert_extract_round_trip_witness :
    ∃ out',
      extract (insertBuffer exampleM (some [10, 20, 30, 40]) 2 2 0 2 0 1 0 1).2
          0 (0 + (2 - 0)) 1 (1 + (1 - 0)) (some [0, 0, 0, 0, 0, 0]) 2 3 0 2 = (true, some out')
      ∧ out'.length = ([0, 0, 0, 0, 0, 0] : List Int).length
      ∧ ∀ i j : Nat, (i : Int) < 2 - 0 → (j : Int) < 1 - 0 →
          ∃ v, ([10, 20, 30, 40] : List Int)[((0 : Int).toNat + i) * (2 : Int).toNat
                + ((0 : Int).toNat + j)]? = some v
            ∧ out'[((0 : Int).toNat + i) * (3 : Int).toNat + ((2 : Int).toNat + j)]? = some v :=
  insert_extract_round_trip exampleM [10, 20, 30, 40] [0, 0, 0, 0, 0, 0] 2 2 0 2 0 1 0 1 2 3 0 2
    (by decide) (by decide) (by decide) (by decide) (by decide) (by decide) (by decide)
    (by decide)

/-- The storage of the 2 x 3 example after the raw `set` of the row-major 3 x 2
buffer `1 2 / 3 4 / 5 6`: the columns `(1,3,5)` and `(2,4,6)`. -/
theorem setBuffer_example :
    setBuffer exampleM (some [1, 2, 3, 4, 5, 6]) 3 2 = (true, ⟨[1, 3, 5, 2, 4, 6], 3, 2⟩) := by
  decide

/-! ## Coefficients after an assignment -/

/-- A cell offset `j * R + i` with `i < R` determines `i` and `j`. -/
theorem cell_inj {R i j i' j' : Nat} (hi : i < R) (hi' : i' < R)
    (h : j * R + i = j' * R + i') : j = j' ∧ i = i' := by
  have hj : j = j' := by
    rcases Nat.lt_trichotomy j j' with hlt | heq | hgt
    · have h1 : (j + 1) * R ≤ j' * R := Nat.mul_le_mul_right R hlt
      have h2 : (j + 1) * R = j * R + R := by ring
      omega
    · exact heq
    · have h1 : (j' + 1) * R ≤ j * R := Nat.mul_le_mul_right R hgt
      have h2 : (j' + 1) * R = j' * R + R := by ring
      omega
  subst hj
  exact ⟨rfl, by omega⟩

/-- A cell of the view outside the written block keeps its content. -/
theorem getElem?_writeBlock_outside {α : Type} (buf : List α) (R a0 b0 na : Nat)
    (f : Nat → Nat → α) (nb i j : Nat) (hfit : a0 + na ≤ R) (hi : i < R)
    (hout : ¬ (a0 ≤ i ∧ i < a0 + na ∧ b0 ≤ j ∧ j < b0 + nb)) :
    (writeBlock buf R a0 b0 na f nb)[j * R + i]? = buf[j * R + i]? := by
  apply getElem?_writeBlock_miss
  intro a b ha hb heq
  obtain ⟨h1, h2⟩ := cell_inj hi (by omega) heq
  omega

/-- After `matrix = expr` on a valid matrix every coefficient of the view is
the one assigned, and it sits in the storage. -/
theorem coeff_assign {α : Type} [Inhabited α] (m : NativeMatrixImpl α) (f : Nat → Nat → α)
    (hm : Valid m) (i j : Nat) (hi : (i : Int) < m.rows) (hj : (j : Int) < m.cols) :
    coeff (assign m f) i j = f i j
      ∧ (assign m f).storage[j * m.rows.toNat + i]? = some (f i j) := by
  have hlen := valid_toNat m hm
  have tR : (m.rows.toNat : Int) = m.rows := Int.toNat_of_nonneg hm.1
  have tC : (m.cols.toNat : Int) = m.cols := Int.toNat_of_nonneg hm.2.1
  have hi' : i < m.rows.toNat := by omega
  have hj' : j < m.cols.toNat := by omega
  have hin : (0 + j) * m.rows.toNat + (0 + i) < m.storage.length := by
    simpa using Nat.lt_of_lt_of_le (cell_lt hi' hj') hlen
  have hit := getElem?_writeBlock_hit m.storage m.rows.toNat 0 0 m.rows.toNat f m.cols.toNat
    i j (by omega) hi' hj' hin
  simp only [Nat.zero_add] at hit
  refine ⟨?_, hit⟩
  show (assign m f).storage.getD (j * m.rows.toNat + i) default = f i j
  rw [List.getD_eq_getElem?_getD]
  show (writeBlock m.storage m.rows.toNat 0 0 m.rows.toNat f m.cols.toNat)[j * m.rows.toNat + i]?.getD
    default = f i j
  rw [hit]
  rfl

/-- After `matrix.block(r0, c0, h, w) = expr` on a valid matrix, for a block
that lies inside the view: the coefficients of the block are the ones
assigned, every other coefficient of the view is kept. -/
theorem coeff_assignBlock {α : Type} [Inhabited α] (m : NativeMatrixImpl α) (r0 c0 h w : Int)
    (f : Nat → Nat → α) (hm : Valid m) (hr0 : 0 ≤ r0) (hc0 : 0 ≤ c0) (hh : 0 ≤ h) (hw : 0 ≤ w)
    (hfr : r0 + h ≤ m.rows) (hfc : c0 + w ≤ m.cols) :
    (∀ i j : Nat, (i : Int) < h → (j : Int) < w →
        coeff (assignBlock m r0 c0 h w f) (r0.toNat + i) (c0.toNat + j) = f i j)
      ∧ (∀ i j : Nat, (i : Int) < m.rows → (j : Int) < m.cols →
          ¬ (r0 ≤ (i : Int) ∧ (i : Int) < r0 + h ∧ c0 ≤ (j : Int) ∧ (j : Int) < c0 + w) →
          coeff (assignBlock m r0 c0 h w f) i j = coeff m i j) := by
  have hlen := valid_toNat m hm
  have tR : (m.rows.toNat : Int) = m.rows := Int.toNat_of_nonneg hm.1
  have tC : (m.cols.toNat : Int) = m.cols := Int.toNat_of_nonneg hm.2.1
  have tr0 : (r0.toNat : Int) = r0 := Int.toNat_of_nonneg hr0
  have tc0 : (c0.toNat : Int) = c0 := Int.toNat_of_nonneg hc0
  have th : (h.toNat : Int) = h := Int.toNat_of_nonneg hh
  have tw : (w.toNat : Int) = w := Int.toNat_of_nonneg hw
  constructor
  · intro i j hi hj
    have hin : (c0.toNat + j) * m.rows.toNat + (r0.toNat + i) < m.storage.length :=
      Nat.lt_of_lt_of_le (cell_lt (by omega) (by omega)) hlen
    show (writeBlock m.storage m.rows.toNat r0.toNat c0.toNat h.toNat f w.toNat).getD
      ((c0.toNat + j) * m.rows.toNat + (r0.toNat + i)) default = f i j
    rw [List.getD_eq_getElem?_getD, getElem?_writeBlock_hit m.storage m.rows.toNat r0.toNat
      c0.toNat h.toNat f w.toNat i j (by omega) (by omega) (by omega) hin]
    rfl
  · intro i j hi hj hout
    show (writeBlock m.storage m.rows.toNat r0.toNat c0.toNat h.toNat f w.toNat).getD
      (j * m.rows.toNat + i) default = m.storage.getD (j * m.rows.toNat + i) default
    rw [List.getD_eq_getElem?_getD, List.getD_eq_getElem?_getD,
      getElem?_writeBlock_outside m.storage m.rows.toNat r0.toNat c0.toNat h.toNat f w.toNat i j
        (by omega) (by omega) (by omega)]

/-! ## solveCheck -/

/-- C11: for a valid receiver and operands with `a.rows = b.rows`, `b.cols = 1`
and `a` square: when the full-pivot invertibility test on `a` reports "not
invertible", `solveCheck(a, b)` returns false and leaves the receiver with
shape `(a.cols, 1)` and the not-a-number constant in every coefficient; when
the test reports "invertible" it returns true with shape `(a.cols, 1)`; when
the dimension precondition fails it returns false with the receiver as it
was. -/
theorem solveCheck_contract {α : Type} [Inhabited α] (E : Kernels α) (m a b : NativeMatrixImpl α)
    (hm : Valid m) :
    (a.rows = b.rows ∧ b.cols = 1 ∧ a.cols = a.rows →
      (E.isInvertible a.rows.toNat (coeff a) = false →
        (solveCheck E m a b).1 = false
          ∧ (solveCheck E m a b).2.rows = a.cols ∧ (solveCheck E m a b).2.cols = 1
          ∧ ∀ i j : Nat, (i : Int) < a.cols → (j : Int) < 1 →
              coeff (solveCheck E m a b).2 i j = E.nan
                ∧ (solveCheck E m a b).2.storage[j * a.cols.toNat + i]? = some E.nan)
      ∧ (E.isInvertible a.rows.toNat (coeff a) = true →
        (solveCheck E m a b).1 = true
          ∧ (solveCheck E m a b).2.rows = a.cols ∧ (solveCheck E m a b).2.cols = 1))
    ∧ (¬ (a.rows = b.rows ∧ b.cols = 1 ∧ a.cols = a.rows) → solveCheck E m a b = (false, m)) := by
  obtain ⟨hs1, hs2⟩ := shape_resize m a.cols 1
  constructor
  · intro hpre
    have hc : ¬ (a.rows ≠ b.rows ∨ b.cols ≠ 1 ∨ a.cols ≠ a.rows) := by
      simp only [ne_eq, not_or, not_not]
      exact hpre
    constructor
    · intro hinv
      have hres : solveCheck E m a b = (false, assign (resize m a.cols 1) fun _ _ => E.nan) := by
        simp only [solveCheck, if_neg hc, hinv, Bool.false_eq_true, if_false]
      rw [hres]
      refine ⟨rfl, hs1, hs2, ?_⟩
      intro i j hi hj
      have hcols : 0 ≤ a.cols := by omega
      have hv := valid_resize m a.cols 1 hm hcols (by decide)
      have h := coeff_assign (resize m a.cols 1) (fun _ _ => E.nan) hv i j
        (by rw [hs1]; exact hi) (by rw [hs2]; exact hj)
      rw [hs1] at h
      exact h
    · intro hinv
      have hres : solveCheck E m a b = (true, assign (resize m a.cols 1) fun i _ =>
          E.fullPivSolve a.rows.toNat (coeff a) (fun k => coeff b k 0) i) := by
        simp only [solveCheck, if_neg hc, hinv, if_true]
      rw [hres]
      exact ⟨rfl, hs1, hs2⟩
  · intro hpre
    have hc : a.rows ≠ b.rows ∨ b.cols ≠ 1 ∨ a.cols ≠ a.rows := by
      by_contra hn
      simp only [ne_eq, not_or, not_not] at hn
      exact hpre hn
    simp only [solveCheck, if_pos hc]

/-- A concrete instance of C11: `a = [[1,2],[2,4]]`, `b = [[1],[1]]` and the
2 x 3 example as receiver, with the determinant as invertibility test. -/
theorem solveCheck_contract_witness :
    (exampleSingular.rows = exampleOnes.rows ∧ exampleOnes.cols = 1
        ∧ exampleSingular.cols = exampleSingular.rows →
      (exactKernels.isInvertible exampleSingular.rows.toNat (coeff exampleSingular) = false →
        (solveCheck exactKernels exampleM exampleSingular exampleOnes).1 = false
          ∧ (solveCheck exactKernels exampleM exampleSingular exampleOnes).2.rows
            = exampleSingular.cols
          ∧ (solveCheck exactKernels exampleM exampleSingular exampleOnes).2.cols = 1
          ∧ ∀ i j : Nat, (i : Int) < exampleSingular.cols → (j : Int) < 1 →
              coeff (solveCheck exactKernels exampleM exampleSingular exampleOnes).2 i j
                  = exactKernels.nan
                ∧ (solveCheck exactKernels exampleM exampleSingular
                    exampleOnes).2.storage[j * exampleSingular.cols.toNat + i]?
                  = some exactKernels.nan)
      ∧ (exactKernels.isInvertible exampleSingular.rows.toNat (coeff exampleSingular) = true →
        (solveCheck exactKernels exampleM exampleSingular exampleOnes).1 = true
          ∧ (solveCheck exactKernels exampleM exampleSingular exampleOnes).2.rows
            = exampleSingular.cols
          ∧ (solveCheck exactKernels exampleM exampleSingular exampleOnes).2.cols = 1))
    ∧ (¬ (exampleSingular.rows = exampleOnes.rows ∧ exampleOnes.cols = 1
          ∧ exampleSingular.cols = exampleSingular.rows) →
      solveCheck exactKernels exampleM exampleSingular exampleOnes = (false, exampleM)) :=
  solveCheck_contract exactKernels exampleM exampleSingular exampleOnes (by decide)

/-- The scenario of the specification, evaluated: with `a = [[1,2],[2,4]]`
(determinant zero) and `b = [[1],[1]]`, `solveCheck` on a fresh 0 x 0 receiver
returns false and leaves a 2 x 1 matrix whose two cells are the not-a-number
constant (`-1` in the example kernels). -/
theorem solveCheck_singular_example :
    exactKernels.isInvertible exampleSingular.rows.toNat (coeff exampleSingular) = false
      ∧ solveCheck exactKernels (new 0 0) exampleSingular exampleOnes
        = (false, ⟨[exactKernels.nan, exactKernels.nan], 2, 1⟩) := by
  decide

/-! ## Arguments of resize -/

/-- Every operation with matrix operands that calls `resize` either returns
false with the receiver untouched or hands `resize` two non-negative
dimensions, when its operands have non-negative shapes; the raw `set` does so
when its own two integer arguments are non-negative. -/
theorem resize_arguments_of_operations {α : Type} [Inhabited α] [Zero α] [Add α] [Sub α] [Mul α]
    (E : Kernels α) (m a b : NativeMatrixImpl α) (s : α) (ha : Valid a) (hb : Valid b) :
    ((set m a) = (false, m) ∨ ∃ (r c : Int) (f : Nat → Nat → α) (flag : Bool), 0 ≤ r ∧ 0 ≤ c
        ∧ (set m a) = (flag, assign (resize m r c) f))
    ∧ ((add m a b) = (false, m) ∨ ∃ (r c : Int) (f : Nat → Nat → α) (flag : Bool), 0 ≤ r ∧ 0 ≤ c
        ∧ (add m a b) = (flag, assign (resize m r c) f))
    ∧ ((subtract m a b) = (false, m) ∨ ∃ (r c : Int) (f : Nat → Nat → α) (flag : Bool), 0 ≤ r ∧ 0 ≤ c
        ∧ (subtract m a b) = (flag, assign (resize m r c) f))
    ∧ ((mult m a b) = (false, m) ∨ ∃ (r c : Int) (f : Nat → Nat → α) (flag : Bool), 0 ≤ r ∧ 0 ≤ c
        ∧ (mult m a b) = (flag, assign (resize m r c) f))
    ∧ ((multScale m s a b) = (false, m) ∨ ∃ (r c : Int) (f : Nat → Nat → α) (flag : Bool), 0 ≤ r ∧ 0 ≤ c
        ∧ (multScale m s a b) = (flag, assign (resize m r c) f))
    ∧ ((multTransA m a b) = (false, m) ∨ ∃ (r c : Int) (f : Nat → Nat → α) (flag : Bool), 0 ≤ r ∧ 0 ≤ c
        ∧ (multTransA m a b) = (flag, assign (resize m r c) f))
    ∧ ((multTransB m a b) = (false, m) ∨ ∃ (r c : Int) (f : Nat → Nat → α) (flag : Bool), 0 ≤ r ∧ 0 ≤ c
        ∧ (multTransB m a b) = (flag, assign (resize m r c) f))
    ∧ ((multQuad m a b) = (false, m) ∨ ∃ (r c : Int) (f : Nat → Nat → α) (flag : Bool), 0 ≤ r ∧ 0 ≤ c
        ∧ (multQuad m a b) = (flag, assign (resize m r c) f))
    ∧ ((invert E m a) = (false, m) ∨ ∃ (r c : Int) (f : Nat → Nat → α) (flag : Bool), 0 ≤ r ∧ 0 ≤ c
        ∧ (invert E m a) = (flag, assign (resize m r c) f))
    ∧ ((solve E m a b) = (false, m) ∨ ∃ (r c : Int) (f : Nat → Nat → α) (flag : Bool), 0 ≤ r ∧ 0 ≤ c
        ∧ (solve E m a b) = (flag, assign (resize m r c) f))
    ∧ ((solveCheck E m a b) = (false, m) ∨ ∃ (r c : Int) (f : Nat → Nat → α) (flag : Bool), 0 ≤ r ∧ 0 ≤ c
        ∧ (solveCheck E m a b) = (flag, assign (resize m r c) f))
    ∧ ((transpose m a) = (false, m) ∨ ∃ (r c : Int) (f : Nat → Nat → α) (flag : Bool), 0 ≤ r ∧ 0 ≤ c
        ∧ (transpose m a) = (flag, assign (resize m r c) f))
    ∧ ((scale m s a) = (false, m) ∨ ∃ (r c : Int) (f : Nat → Nat → α) (flag : Bool), 0 ≤ r ∧ 0 ≤ c
        ∧ (scale m s a) = (flag, assign (resize m r c) f))
    ∧ (∀ (d : List α) (rows cols : Int), 0 ≤ rows → 0 ≤ cols →
        setBuffer m (some d) rows cols = (true, assign (resize m rows cols) (rowMajorCoeff d cols)))
    ∧ (∀ rows cols : Int, setBuffer m none rows cols = (false, m)) := by
  obtain ⟨ha1, ha2, -⟩ := ha
  obtain ⟨hb1, hb2, -⟩ := hb
  refine ⟨?_, ?_, ?_, ?_, ?_, ?_, ?_, ?_, ?_, ?_, ?_, ?_, ?_, ?_, ?_⟩
  · exact Or.inr ⟨_, _, _, _, ha1, ha2, rfl⟩
  · unfold add
    split
    · exact Or.inl rfl
    · exact Or.inr ⟨_, _, _, _, ha1, ha2, rfl⟩
  · unfold subtract
    split
    · exact Or.inl rfl
    · exact Or.inr ⟨_, _, _, _, ha1, ha2, rfl⟩
  · unfold mult
    split
    · exact Or.inl rfl
    · exact Or.inr ⟨_, _, _, _, ha1, hb2, rfl⟩
  · unfold multScale
    split
    · exact Or.inl rfl
    · exact Or.inr ⟨_, _, _, _, ha1, hb2, rfl⟩
  · unfold multTransA
    split
    · exact Or.inl rfl
    · exact Or.inr ⟨_, _, _, _, ha2, hb2, rfl⟩
  · unfold multTransB
    split
    · exact Or.inl rfl
    · exact Or.inr ⟨_, _, _, _, ha1, hb1, rfl⟩
  · unfold multQuad
    split
    · exact Or.inl rfl
    · exact Or.inr ⟨_, _, _, _, ha2, ha2, rfl⟩
  · unfold invert
    split
    · exact Or.inl rfl
    · exact Or.inr ⟨_, _, _, _, ha1, ha2, rfl⟩
  · unfold solve
    split
    · exact Or.inl rfl
    · exact Or.inr ⟨_, _, _, _, ha2, (by decide), rfl⟩
  · unfold solveCheck
    split
    · exact Or.inl rfl
    · dsimp only
      split
      · exact Or.inr ⟨_, _, _, _, ha2, (by decide), rfl⟩
      · exact Or.inr ⟨_, _, _, _, ha2, (by decide), rfl⟩
  · exact Or.inr ⟨_, _, _, _, ha2, ha1, rfl⟩
  · exact Or.inr ⟨_, _, _, _, ha1, ha2, rfl⟩
  · intro d rows cols _ _
    rfl
  · intro rows cols
    rfl

/-- C12 (failing input): the raw `set` with a non-null buffer and `rows = -1`
does not return false: the only test is the null test, so `resize(-1, 5)` is
called, and the receiver is left with the shape `(-1, 5)`, outside the data
model. -/
theorem setBuffer_negative_rows_accepted :
    setBuffer exampleM (some [7, 7, 7, 7, 7]) (-1) 5 = (true, ⟨[1, 2, 3, 4, 5, 6], -1, 5⟩)
      ∧ Valid exampleM
      ∧ ¬ Valid (setBuffer exampleM (some [7, 7, 7, 7, 7]) (-1) 5).2
      ∧ setBuffer exampleM (some [7, 7, 7, 7, 7]) (-1) 5
        = (true, assign (resize exampleM (-1) 5) (rowMajorCoeff [7, 7, 7, 7, 7] 5)) := by
  decide

/-! ## Block copies -/

/-- A successful `extract` has passed every bound and has written the block. -/
theorem extract_of_true {α : Type} [Inhabited α] (m : NativeMatrixImpl α) (out : List α)
    (y0 y1 x0 x1 dr dc dy dx : Int)
    (h : (extract m y0 y1 x0 x1 (some out) dr dc dy dx).1 = true) :
    (0 ≤ y0 ∧ y0 ≤ y1 ∧ y1 ≤ m.rows ∧ 0 ≤ x0 ∧ x0 ≤ x1 ∧ x1 ≤ m.cols ∧ 0 ≤ dy ∧ 0 ≤ dx
        ∧ dy + (y1 - y0) ≤ dr ∧ dx + (x1 - x0) ≤ dc)
      ∧ extract m y0 y1 x0 x1 (some out) dr dc dy dx
          = (true, some (assignRowMajorBlock out dc dy dx (y1 - y0) (x1 - x0) fun i j =>
              coeff m (y0.toNat + i) (x0.toNat + j))) := by
  revert h
  unfold extract
  dsimp only
  repeat' split
  all_goals intro h
  all_goals first
    | exact ⟨by omega, rfl⟩
    | cases h

/-- A successful matrix `insert` has passed every bound and has written the
block. -/
theorem insert_of_true {α : Type} [Inhabited α] (m src : NativeMatrixImpl α)
    (y0 y1 x0 x1 dy dx : Int) (h : (insert m src y0 y1 x0 x1 dy dx).1 = true) :
    (0 ≤ y0 ∧ y0 ≤ y1 ∧ y1 ≤ src.rows ∧ 0 ≤ x0 ∧ x0 ≤ x1 ∧ x1 ≤ src.cols ∧ 0 ≤ dy ∧ 0 ≤ dx
        ∧ dy + (y1 - y0) ≤ m.rows ∧ dx + (x1 - x0) ≤ m.cols)
      ∧ (insert m src y0 y1 x0 x1 dy dx).2
          = assignBlock m dy dx (y1 - y0) (x1 - x0) fun i j =>
              coeff src (y0.toNat + i) (x0.toNat + j) := by
  revert h
  unfold NativeMatrixImpl.insert
  dsimp only
  repeat' split
  all_goals intro h
  all_goals first
    | exact ⟨by omega, rfl⟩
    | cases h

/-- C13: for a valid matrix and a row-major destination of `dstRows x dstCols`
cells, whenever `extract` returns true, with `h = srcY1 - srcY0` and
`w = srcX1 - srcX0`: the destination cell `(dstY0 + i) * dstCols + (dstX0 + j)`
holds the coefficient `(srcY0 + i, srcX0 + j)` of the matrix, that is its
storage cell `(srcX0 + j) * rows + (srcY0 + i)`, for all `i < h`, `j < w`;
every other destination cell is as before.  The matrix is only read: the
operation yields nothing but the flag and the destination. -/
theorem extract_addressing {α : Type} [Inhabited α] (m : NativeMatrixImpl α) (dst : List α)
    (srcY0 srcY1 srcX0 srcX1 dstRows dstCols dstY0 dstX0 : Int)
    (hm : Valid m) (hdst : dstRows * dstCols ≤ (dst.length : Int))
    (hex : (extract m srcY0 srcY1 srcX0 srcX1 (some dst) dstRows dstCols dstY0 dstX0).1 = true) :
    ∃ out',
      extract m srcY0 srcY1 srcX0 srcX1 (some dst) dstRows dstCols dstY0 dstX0 = (true, some out')
      ∧ out'.length = dst.length
      ∧ (∀ i j : Nat, (i : Int) < srcY1 - srcY0 → (j : Int) < srcX1 - srcX0 →
          out'[(dstY0.toNat + i) * dstCols.toNat + (dstX0.toNat + j)]?
              = some (coeff m (srcY0.toNat + i) (srcX0.toNat + j))
            ∧ m.storage[(srcX0.toNat + j) * m.rows.toNat + (srcY0.toNat + i)]?
              = some (coeff m (srcY0.toNat + i) (srcX0.toNat + j)))
      ∧ (∀ k : Nat,
          (∀ i j : Nat, (i : Int) < srcY1 - srcY0 → (j : Int) < srcX1 - srcX0 →
            k ≠ (dstY0.toNat + i) * dstCols.toNat + (dstX0.toNat + j)) →
          out'[k]? = dst[k]?) := by
  obtain ⟨hb, heq⟩ := extract_of_true m dst srcY0 srcY1 srcX0 srcX1 dstRows dstCols dstY0 dstX0 hex
  refine ⟨_, heq, length_writeBlock _ _ _ _ _ _ _, ?_, ?_⟩
  · intro i j hi hj
    have hMlen := valid_toNat m hm
    have hOlen := buffer_toNat dst dstRows dstCols (by omega) (by omega) hdst
    have tR : (m.rows.toNat : Int) = m.rows := Int.toNat_of_nonneg hm.1
    have tC : (m.cols.toNat : Int) = m.cols := Int.toNat_of_nonneg hm.2.1
    have tor : (dstRows.toNat : Int) = dstRows := Int.toNat_of_nonneg (by omega)
    have toc : (dstCols.toNat : Int) = dstCols := Int.toNat_of_nonneg (by omega)
    have ty0 : (srcY0.toNat : Int) = srcY0 := Int.toNat_of_nonneg (by omega)
    have tx0 : (srcX0.toNat : Int) = srcX0 := Int.toNat_of_nonneg (by omega)
    have tdy : (dstY0.toNat : Int) = dstY0 := Int.toNat_of_nonneg (by omega)
    have tdx : (dstX0.toNat : Int) = dstX0 := Int.toNat_of_nonneg (by omega)
    have th : ((srcY1 - srcY0).toNat : Int) = srcY1 - srcY0 := Int.toNat_of_nonneg (by omega)
    have tw : ((srcX1 - srcX0).toNat : Int) = srcX1 - srcX0 := Int.toNat_of_nonneg (by omega)
    constructor
    · exact getElem?_writeBlock_hit dst dstCols.toNat dstX0.toNat dstY0.toNat
        (srcX1 - srcX0).toNat _ (srcY1 - srcY0).toNat j i (by omega) (by omega) (by omega)
        (Nat.lt_of_lt_of_le (cell_lt (by omega) (by omega)) hOlen)
    · exact getElem?_eq_some_coeff m _ _ m.rows.toNat tR.symm
        (Nat.lt_of_lt_of_le (cell_lt (by omega) (by omega)) hMlen)
  · intro k hk
    apply getElem?_writeBlock_miss
    intro a b ha hb' heq'
    have th : ((srcY1 - srcY0).toNat : Int) = srcY1 - srcY0 := Int.toNat_of_nonneg (by omega)
    have tw : ((srcX1 - srcX0).toNat : Int) = srcX1 - srcX0 := Int.toNat_of_nonneg (by omega)
    exact hk b a (by omega) (by omega) heq'

/-- A concrete instance of C13: the second and third column of the 2 x 3 example
matrix are extracted to the lower right corner of a row-major 3 x 3 buffer of
zeros. -/
theorem extract_addressing_witness :
    ∃ out',
      extract exampleM 0 2 1 3 (some [0, 0, 0, 0, 0, 0, 0, 0, 0]) 3 3 1 1 = (true, some out')
      ∧ out'.length = ([0, 0, 0, 0, 0, 0, 0, 0, 0] : List Int).length
      ∧ (∀ i j : Nat, (i : Int) < 2 - 0 → (j : Int) < 3 - 1 →
          out'[((1 : Int).toNat + i) * (3 : Int).toNat + ((1 : Int).toNat + j)]?
              = some (coeff exampleM ((0 : Int).toNat + i) ((1 : Int).toNat + j))
            ∧ exampleM.storage[((1 : Int).toNat + j) * exampleM.rows.toNat
                + ((0 : Int).toNat + i)]?
              = some (coeff exampleM ((0 : Int).toNat + i) ((1 : Int).toNat + j)))
      ∧ (∀ k : Nat,
          (∀ i j : Nat, (i : Int) < 2 - 0 → (j : Int) < 3 - 1 →
            k ≠ ((1 : Int).toNat + i) * (3 : Int).toNat + ((1 : Int).toNat + j)) →
          out'[k]? = ([0, 0, 0, 0, 0, 0, 0, 0, 0] : List Int)[k]?) :=
  extract_addressing exampleM [0, 0, 0, 0, 0, 0, 0, 0, 0] 0 2 1 3 3 3 1 1 (by decide) (by decide)
    (by decide)

/-- The extraction of the instance above, evaluated: rows `(3,5)` and `(4,6)`
land in the lower right corner. -/
theorem extract_example :
    extract exampleM 0 2 1 3 (some [0, 0, 0, 0, 0, 0, 0, 0, 0]) 3 3 1 1
      = (true, some [0, 0, 0, 0, 3, 5, 0, 4, 6]) := by
  decide

/-- C14: for a valid receiver and a source matrix passed by value (an object
of its own), whenever the matrix `insert` returns true, with
`h = srcY1 - srcY0` and `w = srcX1 - srcX0`: the coefficient
`(dstY0 + i, dstX0 + j)` of the receiver is the coefficient
`(srcY0 + i, srcX0 + j)` of the source for all `i < h`, `j < w`; every
coefficient of the receiver outside the rectangle
`[dstY0, dstY0 + h) x [dstX0, dstX0 + w)` is as before; shape and capacity of
the receiver are as before.  The source is only read. -/
theorem insert_copies_block {α : Type} [Inhabited α] (m src : NativeMatrixImpl α)
    (srcY0 srcY1 srcX0 srcX1 dstY0 dstX0 : Int) (hm : Valid m)
    (hins : (insert m src srcY0 srcY1 srcX0 srcX1 dstY0 dstX0).1 = true) :
    (∀ i j : Nat, (i : Int) < srcY1 - srcY0 → (j : Int) < srcX1 - srcX0 →
        coeff (insert m src srcY0 srcY1 srcX0 srcX1 dstY0 dstX0).2 (dstY0.toNat + i)
            (dstX0.toNat + j)
          = coeff src (srcY0.toNat + i) (srcX0.toNat + j))
    ∧ (∀ i j : Nat, (i : Int) < m.rows → (j : Int) < m.cols →
        ¬ (dstY0 ≤ (i : Int) ∧ (i : Int) < dstY0 + (srcY1 - srcY0)
            ∧ dstX0 ≤ (j : Int) ∧ (j : Int) < dstX0 + (srcX1 - srcX0)) →
        coeff (insert m src srcY0 srcY1 srcX0 srcX1 dstY0 dstX0).2 i j = coeff m i j)
    ∧ (insert m src srcY0 srcY1 srcX0 srcX1 dstY0 dstX0).2.rows = m.rows
    ∧ (insert m src srcY0 srcY1 srcX0 srcX1 dstY0 dstX0).2.cols = m.cols
    ∧ (insert m src srcY0 srcY1 srcX0 srcX1 dstY0 dstX0).2.capacity = m.capacity := by
  obtain ⟨hb, heq⟩ := insert_of_true m src srcY0 srcY1 srcX0 srcX1 dstY0 dstX0 hins
  rw [heq]
  obtain ⟨hhit, hmiss⟩ := coeff_assignBlock m dstY0 dstX0 (srcY1 - srcY0) (srcX1 - srcX0)
    (fun i j => coeff src (srcY0.toNat + i) (srcX0.toNat + j)) hm (by omega) (by omega)
    (by omega) (by omega) (by omega) (by omega)
  obtain ⟨hc, hr, hcl⟩ := capacity_assignBlock m dstY0 dstX0 (srcY1 - srcY0) (srcX1 - srcX0)
    (fun i j => coeff src (srcY0.toNat + i) (srcX0.toNat + j))
  exact ⟨hhit, hmiss, hr, hcl, hc⟩

/-- A concrete instance of C14: the lower row of the 2 x 2 example operand is
inserted at `(0, 1)` of the 2 x 3 example. -/
theorem insert_copies_block_witness :
    (∀ i j : Nat, (i : Int) < 2 - 1 → (j : Int) < 2 - 0 →
        coeff (insert exampleM exampleA 1 2 0 2 0 1).2 ((0 : Int).toNat + i) ((1 : Int).toNat + j)
          = coeff exampleA ((1 : Int).toNat + i) ((0 : Int).toNat + j))
    ∧ (∀ i j : Nat, (i : Int) < exampleM.rows → (j : Int) < exampleM.cols →
        ¬ ((0 : Int) ≤ (i : Int) ∧ (i : Int) < 0 + (2 - 1)
            ∧ (1 : Int) ≤ (j : Int) ∧ (j : Int) < 1 + (2 - 0)) →
        coeff (insert exampleM exampleA 1 2 0 2 0 1).2 i j = coeff exampleM i j)
    ∧ (insert exampleM exampleA 1 2 0 2 0 1).2.rows = exampleM.rows
    ∧ (insert exampleM exampleA 1 2 0 2 0 1).2.cols = exampleM.cols
    ∧ (insert exampleM exampleA 1 2 0 2 0 1).2.capacity = exampleM.capacity :=
  insert_copies_block exampleM exampleA 1 2 0 2 0 1 (by decide) (by decide)

/-- The insertion of the instance above, evaluated: row `(2,4)` of the operand
replaces the cells `(0,1)` and `(0,2)`. -/
theorem insert_example :
    insert exampleM exampleA 1 2 0 2 0 1 = (true, ⟨[1, 2, 2, 4, 4, 6], 2, 3⟩) := by
  decide

/-! ## multAddBlock -/

/-- The coefficient of a product, as a sum over the inner index. -/
theorem dot_eq_sum {α : Type} [CommRing α] (n : Nat) (x y : Nat → Nat → α) (i j : Nat) :
    dot n x y i j = Finset.sum (Finset.range n) fun k => x i k * y k j := by
  unfold dot
  induction n with
  | zero => simp
  | succ n ih =>
    rw [List.range_succ, List.map_append, List.sum_append, ih, Finset.sum_range_succ]
    simp

/-- A successful `multAddBlock` has passed every test and has written the
block. -/
theorem multAddBlock_of_true {α : Type} [Inhabited α] [Zero α] [Add α] [Mul α]
    (m a b : NativeMatrixImpl α) (rowStart colStart : Int)
    (h : (multAddBlock m a b rowStart colStart).1 = true) :
    (0 ≤ rowStart ∧ 0 ≤ colStart ∧ a.cols = b.rows ∧ rowStart + a.rows ≤ m.rows
        ∧ colStart + b.cols ≤ m.cols)
      ∧ (multAddBlock m a b rowStart colStart).2
          = assignBlock m rowStart colStart a.rows b.cols fun i j =>
              coeff m (rowStart.toNat + i) (colStart.toNat + j)
                + dot a.cols.toNat (coeff a) (coeff b) i j := by
  revert h
  unfold multAddBlock
  repeat' split
  all_goals intro h
  all_goals first
    | exact ⟨by omega, rfl⟩
    | cases h

/-- C15: with cells in a commutative ring, for a valid receiver and valid
operands passed by value, whenever `multAddBlock(a, b, rowStart, colStart)`
returns true: the coefficient `(rowStart + i, colStart + j)` of the receiver is
its old value plus the sum over `k < a.cols` of `a(i,k) * b(k,j)`, for all
`i < a.rows`, `j < b.cols`; every coefficient outside that block is as before;
shape and capacity are as before. -/
theorem multAddBlock_accumulates {α : Type} [CommRing α] [Inhabited α]
    (m a b : NativeMatrixImpl α) (rowStart colStart : Int)
    (hm : Valid m) (ha : Valid a) (hb : Valid b)
    (hok : (multAddBlock m a b rowStart colStart).1 = true) :
    (∀ i j : Nat, (i : Int) < a.rows → (j : Int) < b.cols →
        coeff (multAddBlock m a b rowStart colStart).2 (rowStart.toNat + i) (colStart.toNat + j)
          = coeff m (rowStart.toNat + i) (colStart.toNat + j)
            + Finset.sum (Finset.range a.cols.toNat) fun k => coeff a i k * coeff b k j)
    ∧ (∀ i j : Nat, (i : Int) < m.rows → (j : Int) < m.cols →
        ¬ (rowStart ≤ (i : Int) ∧ (i : Int) < rowStart + a.rows
            ∧ colStart ≤ (j : Int) ∧ (j : Int) < colStart + b.cols) →
        coeff (multAddBlock m a b rowStart colStart).2 i j = coeff m i j)
    ∧ (multAddBlock m a b rowStart colStart).2.rows = m.rows
    ∧ (multAddBlock m a b rowStart colStart).2.cols = m.cols
    ∧ (multAddBlock m a b rowStart colStart).2.capacity = m.capacity := by
  obtain ⟨hbnd, heq⟩ := multAddBlock_of_true m a b rowStart colStart hok
  rw [heq]
  obtain ⟨hhit, hmiss⟩ := coeff_assignBlock m rowStart colStart a.rows b.cols
    (fun i j => coeff m (rowStart.toNat + i) (colStart.toNat + j)
      + dot a.cols.toNat (coeff a) (coeff b) i j) hm hbnd.1 hbnd.2.1 ha.1 hb.2.1
    hbnd.2.2.2.1 hbnd.2.2.2.2
  obtain ⟨hc, hr, hcl⟩ := capacity_assignBlock m rowStart colStart a.rows b.cols
    (fun i j => coeff m (rowStart.toNat + i) (colStart.toNat + j)
      + dot a.cols.toNat (coeff a) (coeff b) i j)
  refine ⟨?_, hmiss, hr, hcl, hc⟩
  intro i j hi hj
  rw [hhit i j hi hj, dot_eq_sum]

/-- A concrete instance of C15: the product of the two 2 x 2 example operands
is accumulated into the columns 1 and 2 of the 2 x 3 example. -/
theorem multAddBlock_accumulates_witness :
    (∀ i j : Nat, (i : Int) < exampleA.rows → (j : Int) < exampleB.cols →
        coeff (multAddBlock exampleM exampleA exampleB 0 1).2 ((0 : Int).toNat + i)
            ((1 : Int).toNat + j)
          = coeff exampleM ((0 : Int).toNat + i) ((1 : Int).toNat + j)
            + Finset.sum (Finset.range exampleA.cols.toNat) fun k =>
                coeff exampleA i k * coeff exampleB k j)
    ∧ (∀ i j : Nat, (i : Int) < exampleM.rows → (j : Int) < exampleM.cols →
        ¬ ((0 : Int) ≤ (i : Int) ∧ (i : Int) < 0 + exampleA.rows
            ∧ (1 : Int) ≤ (j : Int) ∧ (j : Int) < 1 + exampleB.cols) →
        coeff (multAddBlock exampleM exampleA exampleB 0 1).2 i j = coeff exampleM i j)
    ∧ (multAddBlock exampleM exampleA exampleB 0 1).2.rows = exampleM.rows
    ∧ (multAddBlock exampleM exampleA exampleB 0 1).2.cols = exampleM.cols
    ∧ (multAddBlock exampleM exampleA exampleB 0 1).2.capacity = exampleM.capacity :=
  multAddBlock_accumulates exampleM exampleA exampleB 0 1 (by decide) (by decide) (by decide)
    (by decide)

/-- The accumulation of the instance above, evaluated: the product
`[[23,31],[34,46]]` is added to the columns `(3,4)` and `(5,6)`. -/
theorem multAddBlock_example :
    multAddBlock exampleM exampleA exampleB 0 1 = (true, ⟨[1, 2, 26, 38, 36, 52], 2, 3⟩) := by
  decide

/-! ## Transpose -/

/-- The two transpositions of the instance above, evaluated; the second also on
a matrix without rows. -/
theorem transpose_example :
    transpose exampleA exampleM = (true, ⟨[1, 3, 5, 2, 4, 6], 3, 2⟩)
      ∧ transpose exampleB (transpose exampleA exampleM).2 = (true, ⟨[1, 2, 3, 4, 5, 6], 2, 3⟩)
      ∧ transpose exampleA (new 0 3) = (true, ⟨[1, 2, 3, 4], 3, 0⟩)
      ∧ transpose exampleB (transpose exampleA (new 0 3)).2 = (true, ⟨[5, 6, 7, 8], 0, 3⟩) := by
  decide

/-! ## containsNaN -/

/-- On a matrix with at least one column whose storage is exactly filled
(`capacity = rows * cols`), `removeRow` completes at every valid index: each of
its moves stays inside the `rows * cols` cells. -/
theorem removeRow_in_bounds {α : Type} [Inhabited α] (m : NativeMatrixImpl α) (r : Int)
    (hrows : 0 ≤ m.rows) (hcols : 1 ≤ m.cols) (hfill : (m.capacity : Int) = m.rows * m.cols)
    (hr0 : 0 ≤ r) (hr : r < m.rows) :
    ∃ m', removeRow m r = some (true, m') := by
  obtain ⟨m', h, -⟩ := removeRow_correct m r ⟨hrows, by omega, le_of_eq hfill.symm⟩ hcols hr0 hr
  exact ⟨m', h⟩

/-- A concrete instance of `removeRow_in_bounds`: the 2 x 3 example, whose six
cells are all in use. -/
theorem removeRow_in_bounds_witness : ∃ m', removeRow exampleM 1 = some (true, m') :=
  removeRow_in_bounds exampleM 1 (by decide) (by decide) (by decide) (by decide) (by decide)

/-- C18 (failing input): the 4 x 0 matrix built by the constructor has
`rows ≥ 1`, `cols ≥ 0` and `1` is a valid row index, yet the final move of
`removeRow(1)` is `memmove` of `remaining = 2` cells at the offsets
`lastCol * newRows + 1 = -2` and `lastCol * oldRows + 1 + 1 = -2`: the cells
`-2` and `-1`, outside `[0, rows * cols) = [0, 0)`.  With buffer accesses
checked, the out-of-range branch is reached. -/
theorem removeRow_moves_before_storage :
    Valid (new 4 0 : NativeMatrixImpl Int)
      ∧ (1 : Int) ≤ (new 4 0 : NativeMatrixImpl Int).rows
      ∧ (0 : Int) ≤ (new 4 0 : NativeMatrixImpl Int).cols
      ∧ (0 : Int) ≤ 1 ∧ (1 : Int) < (new 4 0 : NativeMatrixImpl Int).rows
      ∧ ((new 4 0 : NativeMatrixImpl Int).cols - 1) * ((new 4 0 : NativeMatrixImpl Int).rows - 1) + 1
          = -2
      ∧ ((new 4 0 : NativeMatrixImpl Int).cols - 1) * (new 4 0 : NativeMatrixImpl Int).rows + 1 + 1
          = -2
      ∧ (new 4 0 : NativeMatrixImpl Int).rows - 1 - 1 = 2
      ∧ (new 4 0 : NativeMatrixImpl Int).rows * (new 4 0 : NativeMatrixImpl Int).cols = 0
      ∧ memmove (new 4 0 : NativeMatrixImpl Int).storage (-2) (-2) 2 = none
      ∧ removeRow (new 4 0 : NativeMatrixImpl Int) 1 = none := by
  decide

/-! ## Machine arithmetic -/

/-- An exact value inside the `int` range is not changed by wrap-around. -/
theorem wrap32_of_range (x : Int) (h1 : -2147483648 ≤ x) (h2 : x ≤ 2147483647) :
    wrap32 x = x := by
  unfold wrap32
  omega

/-- While the product of the two dimensions fits in an `int`, `resize` in
machine arithmetic is `resize` over the integers. -/
theorem resize32_eq_resize {α : Type} [Inhabited α] (m : NativeMatrixImpl α) (r c : Int)
    (h1 : -2147483648 ≤ r * c) (h2 : r * c ≤ 2147483647) : resize32 m r c = resize m r c := by
  unfold resize32 resize
  rw [wrap32_of_range _ h1 h2]

/-- A concrete instance of `resize32_eq_resize`. -/
theorem resize32_eq_resize_witness : resize32 exampleM 3 4 = resize exampleM 3 4 :=
  resize32_eq_resize exampleM 3 4 (by decide) (by decide)

/-- While the product of two non-negative dimensions fits in an `int`, the
capacity after `resize` in machine arithmetic is at least that product. -/
theorem capacity_resize32 {α : Type} [Inhabited α] (m : NativeMatrixImpl α) (r c : Int)
    (hm : Valid m) (hr : 0 ≤ r) (hc : 0 ≤ c) (h : r * c ≤ 2147483647) :
    r * c ≤ ((resize32 m r c).capacity : Int) := by
  have h0 : 0 ≤ r * c := Int.mul_nonneg hr hc
  rw [resize32_eq_resize m r c (by omega) h]
  obtain ⟨hs1, hs2⟩ := shape_resize m r c
  have hv := (valid_resize m r c hm hr hc).2.2
  rw [hs1, hs2] at hv
  exact hv

/-- A concrete instance of `capacity_resize32`. -/
theorem capacity_resize32_witness :
    (3 : Int) * 4 ≤ ((resize32 exampleM 3 4).capacity : Int) :=
  capacity_resize32 exampleM 3 4 (by decide) (by decide) (by decide) (by decide)

/-- C19 (failing input): `resize(65536, 65536)` on a fresh 0 x 0 matrix.  Both
dimensions lie in `[0, 2^31 - 1]`, the `int` product wraps to `0`, the test
`0 > storage.size()` fails, no cell is allocated and the view is set to
65536 x 65536 over an empty storage: the capacity `0` is below the exact
product `2^32`.  The same happens inside `mult(a, b)` for `a` of shape
`(65536, 1)` and `b` of shape `(1, 65536)`. -/
theorem resize32_product_overflow :
    wrap32 (65536 * 65536) = 0
      ∧ resize32 (new 0 0 : NativeMatrixImpl Int) 65536 65536 = ⟨[], 65536, 65536⟩
      ∧ ((0 : Int) ≤ 65536 ∧ (65536 : Int) ≤ 2147483647)
      ∧ ¬ ((65536 : Int) * 65536
          ≤ ((resize32 (new 0 0 : NativeMatrixImpl Int) 65536 65536).capacity : Int))
      ∧ (mult32 (new 0 0 : NativeMatrixImpl Int) (new 65536 1) (new 1 65536)).1 = true
      ∧ (mult32 (new 0 0 : NativeMatrixImpl Int) (new 65536 1) (new 1 65536)).2.rows = 65536
      ∧ (mult32 (new 0 0 : NativeMatrixImpl Int) (new 65536 1) (new 1 65536)).2.cols = 65536
      ∧ (mult32 (new 0 0 : NativeMatrixImpl Int) (new 65536 1) (new 1 65536)).2.capacity = 0 := by
  have hw : wrap32 (65536 * 65536) = 0 := by decide
  have hr : resize32 (new 0 0 : NativeMatrixImpl Int) 65536 65536 = ⟨[], 65536, 65536⟩ := by
    decide
  have hm : mult32 (new 0 0 : NativeMatrixImpl Int) (new 65536 1) (new 1 65536)
      = (true, assign (resize32 (new 0 0) 65536 65536)
          (dot (1 : Int).toNat (coeff (new 65536 1)) (coeff (new 1 65536)))) := rfl
  refine ⟨hw, hr, by decide, ?_, ?_, ?_, ?_, ?_⟩
  · rw [hr]
    decide
  · rw [hm]
  · rw [hm, hr]
    rfl
  · rw [hm, hr]
    rfl
  · rw [hm, hr]
    exact (capacity_assign _ _).1

/-- While its four sums fit in an `int`, `addBlock` in machine arithmetic is
`addBlock` over the integers. -/
theorem addBlock32_eq_addBlock {α : Type} [Inhabited α] [Add α] [Mul α]
    (m a : NativeMatrixImpl α) (dr dc sr sc nr nc : Int) (s : α)
    (h1 : dr + nr ≤ 2147483647) (h2 : dc + nc ≤ 2147483647) (h3 : sr + nr ≤ 2147483647)
    (h4 : sc + nc ≤ 2147483647) :
    addBlock32 m a dr dc sr sc nr nc s = addBlock m a dr dc sr sc nr nc s := by
  unfold addBlock32 addBlock
  by_cases hneg : dr < 0 ∨ dc < 0 ∨ sr < 0 ∨ sc < 0 ∨ nr < 0 ∨ nc < 0
  · rw [if_pos hneg, if_pos hneg]
  · rw [wrap32_of_range (dr + nr) (by omega) h1, wrap32_of_range (dc + nc) (by omega) h2,
      wrap32_of_range (sr + nr) (by omega) h3, wrap32_of_range (sc + nc) (by omega) h4]

/-- A concrete instance of `addBlock32_eq_addBlock`. -/
theorem addBlock32_eq_addBlock_witness :
    addBlock32 exampleM exampleA 0 1 0 0 2 2 1 = addBlock exampleM exampleA 0 1 0 0 2 2 1 :=
  addBlock32_eq_addBlock exampleM exampleA 0 1 0 0 2 2 1 (by decide) (by decide) (by decide)
    (by decide)

/-- The check of `multAddBlock` is written with differences, `rows() - rowStart`
and `cols() - colStart`, which cannot leave the `int` range for a receiver with
non-negative dimensions in that range: in machine arithmetic `multAddBlock` is
`multAddBlock` over the integers. -/
theorem multAddBlock32_eq_multAddBlock {α : Type} [Inhabited α] [Zero α] [Add α] [Mul α]
    (m a b : NativeMatrixImpl α) (rowStart colStart : Int)
    (hr0 : 0 ≤ m.rows) (hr1 : m.rows ≤ 2147483647) (hc0 : 0 ≤ m.cols) (hc1 : m.cols ≤ 2147483647)
    (hrs : rowStart ≤ 2147483647) (hcs : colStart ≤ 2147483647) :
    multAddBlock32 m a b rowStart colStart = multAddBlock m a b rowStart colStart := by
  unfold multAddBlock32 multAddBlock
  by_cases hneg : rowStart < 0 ∨ colStart < 0
  · rw [if_pos hneg, if_pos hneg]
  · rw [wrap32_of_range (m.rows - rowStart) (by omega) (by omega),
      wrap32_of_range (m.cols - colStart) (by omega) (by omega)]

/-- A concrete instance of `multAddBlock32_eq_multAddBlock`, at the largest
`int` as row start. -/
theorem multAddBlock32_eq_multAddBlock_witness :
    multAddBlock32 exampleM exampleA exampleB 2147483647 0
      = multAddBlock exampleM exampleA exampleB 2147483647 0 :=
  multAddBlock32_eq_multAddBlock exampleM exampleA exampleB 2147483647 0 (by decide) (by decide)
    (by decide) (by decide) (by decide) (by decide)

/-- While the source coordinates and the two destination sums fit in an `int`,
the matrix `insert` in machine arithmetic is `insert` over the integers. -/
theorem insert32_eq_insert {α : Type} [Inhabited α] (m src : NativeMatrixImpl α)
    (y0 y1 x0 x1 dy dx : Int) (hy0 : y0 ≤ 2147483647) (hy : y1 ≤ 2147483647)
    (hx0 : x0 ≤ 2147483647) (hx : x1 ≤ 2147483647)
    (h1 : dy + (y1 - y0) ≤ 2147483647) (h2 : dx + (x1 - x0) ≤ 2147483647) :
    insert32 m src y0 y1 x0 x1 dy dx = insert m src y0 y1 x0 x1 dy dx := by
  unfold insert32 NativeMatrixImpl.insert
  by_cases hneg : y0 < 0 ∨ y1 < 0 ∨ x0 < 0 ∨ x1 < 0 ∨ dy < 0 ∨ dx < 0
  · rw [if_pos hneg, if_pos hneg]
  · dsimp only
    rw [wrap32_of_range (x1 - x0) (by omega) (by omega),
      wrap32_of_range (y1 - y0) (by omega) (by omega),
      wrap32_of_range (dy + (y1 - y0)) (by omega) h1,
      wrap32_of_range (dx + (x1 - x0)) (by omega) h2]

/-- A concrete instance of `insert32_eq_insert`. -/
theorem insert32_eq_insert_witness :
    insert32 exampleM exampleA 1 2 0 2 0 1 = insert exampleM exampleA 1 2 0 2 0 1 :=
  insert32_eq_insert exampleM exampleA 1 2 0 2 0 1 (by decide) (by decide) (by decide)
    (by decide) (by decide) (by decide)

/-- The same for the raw `insert`. -/
theorem insertBuffer32_eq_insertBuffer {α : Type} [Inhabited α] (m : NativeMatrixImpl α)
    (src : Option (List α)) (sr sc y0 y1 x0 x1 dy dx : Int) (hy0 : y0 ≤ 2147483647)
    (hy : y1 ≤ 2147483647) (hx0 : x0 ≤ 2147483647) (hx : x1 ≤ 2147483647)
    (h1 : dy + (y1 - y0) ≤ 2147483647) (h2 : dx + (x1 - x0) ≤ 2147483647) :
    insertBuffer32 m src sr sc y0 y1 x0 x1 dy dx = insertBuffer m src sr sc y0 y1 x0 x1 dy dx := by
  unfold insertBuffer32 insertBuffer
  cases src with
  | none => rfl
  | some data =>
    by_cases hneg : y0 < 0 ∨ y1 < 0 ∨ x0 < 0 ∨ x1 < 0 ∨ dy < 0 ∨ dx < 0
    · simp only [if_pos hneg]
    · dsimp only
      rw [wrap32_of_range (x1 - x0) (by omega) (by omega),
        wrap32_of_range (y1 - y0) (by omega) (by omega),
        wrap32_of_range (dy + (y1 - y0)) (by omega) h1,
        wrap32_of_range (dx + (x1 - x0)) (by omega) h2]

/-- A concrete instance of `insertBuffer32_eq_insertBuffer`. -/
theorem insertBuffer32_eq_insertBuffer_witness :
    insertBuffer32 exampleM (some [10, 20, 30, 40]) 2 2 0 2 0 1 0 1
      = insertBuffer exampleM (some [10, 20, 30, 40]) 2 2 0 2 0 1 0 1 :=
  insertBuffer32_eq_insertBuffer exampleM (some [10, 20, 30, 40]) 2 2 0 2 0 1 0 1 (by decide)
    (by decide) (by decide) (by decide) (by decide) (by decide)

/-- The same for `extract`. -/
theorem extract32_eq_extract {α : Type} [Inhabited α] (m : NativeMatrixImpl α)
    (y0 y1 x0 x1 : Int) (dst : Option (List α)) (dr dc dy dx : Int) (hy0 : y0 ≤ 2147483647)
    (hy : y1 ≤ 2147483647) (hx0 : x0 ≤ 2147483647) (hx : x1 ≤ 2147483647)
    (h1 : dy + (y1 - y0) ≤ 2147483647) (h2 : dx + (x1 - x0) ≤ 2147483647) :
    extract32 m y0 y1 x0 x1 dst dr dc dy dx = extract m y0 y1 x0 x1 dst dr dc dy dx := by
  unfold extract32 extract
  cases dst with
  | none => rfl
  | some data =>
    by_cases hneg : y0 < 0 ∨ y1 < 0 ∨ x0 < 0 ∨ x1 < 0 ∨ dy < 0 ∨ dx < 0
    · simp only [if_pos hneg]
    · dsimp only
      rw [wrap32_of_range (x1 - x0) (by omega) (by omega),
        wrap32_of_range (y1 - y0) (by omega) (by omega),
        wrap32_of_range (dy + (y1 - y0)) (by omega) h1,
        wrap32_of_range (dx + (x1 - x0)) (by omega) h2]

/-- A concrete instance of `extract32_eq_extract`. -/
theorem extract32_eq_extract_witness :
    extract32 exampleM 0 2 1 3 (some [0, 0, 0, 0, 0, 0, 0, 0, 0]) 3 3 1 1
      = extract exampleM 0 2 1 3 (some [0, 0, 0, 0, 0, 0, 0, 0, 0]) 3 3 1 1 :=
  extract32_eq_extract exampleM 0 2 1 3 (some [0, 0, 0, 0, 0, 0, 0, 0, 0]) 3 3 1 1 (by decide)
    (by decide) (by decide) (by decide) (by decide) (by decide)

/-- C20 (failing inputs): with the sums computed in `int`, a start coordinate
`2147483647` and an extent `1` give the wrapped sum `-2147483648`, which passes
every `dimension < sum` and `sum > dimension` test.  `addBlock`, both `insert`
overloads and `extract` then return true although the exact sum `2147483648`
exceeds the 2 rows of the receiver (the 1 row of the destination buffer for
`extract`), so the destination rectangle does not lie inside it;
`multAddBlock`, whose check is written with differences, rejects the same
start. -/
theorem block_checks_wrap_around :
    wrap32 (2147483647 + 1) = -2147483648
      ∧ (addBlock32 exampleM exampleA 2147483647 0 2147483647 0 1 1 1).1 = true
      ∧ ¬ ((2147483647 : Int) + 1 ≤ exampleM.rows)
      ∧ ¬ ((2147483647 : Int) + 1 ≤ exampleA.rows)
      ∧ (insert32 exampleM exampleA 0 1 0 1 2147483647 0).1 = true
      ∧ (insertBuffer32 exampleM (some [9]) 1 1 0 1 0 1 2147483647 0).1 = true
      ∧ ¬ ((2147483647 : Int) + (1 - 0) ≤ exampleM.rows)
      ∧ (extract32 exampleM 0 1 0 1 (some [0]) 1 1 2147483647 0).1 = true
      ∧ ¬ ((2147483647 : Int) + (1 - 0) ≤ 1)
      ∧ (multAddBlock32 exampleM exampleA exampleB 2147483647 0).1 = false := by
  decide

end NativeCommonOps
